import Mathlib

set_option maxRecDepth 8000

/-!
Verification of the battlefield terrain-interaction engine
(`src/Battlescape/TerrainModifier.cpp`, with material data from
`src/Ruleset/MapData.cpp`) against its natural-language specification.

The engine's own code is embedded directly from the source.  The external
collaborators the spec puts out of scope (the `Tile` entity, the battle-state
container's tile lookup, the random source, `Tile::openDoor` and friends) are
not among the sources; each such definition carries a doc comment starting
with `Modelled from the spec:` and follows the spec's words.

C++ `/` and `%` on `int` truncate toward zero, so they are embedded as
`Int.tdiv` / `Int.tmod`.  The double-precision trigonometry driving the FOV
and explosion ray fans is represented by an explicit table of rational values
(`Env`), threaded through the definitions; all general theorems below hold for
every table.  The out-of-bounds ninth read of `vectorToDirection`'s 8-entry
tables yields an indeterminate pair, represented by the `junkX`/`junkY`
parameters of `Env`; all general theorems hold for every junk pair.
-/

namespace OXC

/-- Integer triple addressing a grid cell (tile space) or a sub-tile voxel
(voxel space); embeds the C++ `Position` struct. -/
structure Position where
  x : Int
  y : Int
  z : Int
deriving DecidableEq, Repr

instance : Add Position := ⟨fun a b => ⟨a.x + b.x, a.y + b.y, a.z + b.z⟩⟩

instance : Sub Position := ⟨fun a b => ⟨a.x - b.x, a.y - b.y, a.z - b.z⟩⟩

/-- Damage channels (`ItemDamageType`) used by the blockage evaluator. -/
inductive ItemDamageType where
  | DT_NONE
  | DT_AP
  | DT_HE
  | DT_SMOKE
  | DT_IN
  | DT_STUN
deriving DecidableEq, Repr

/-- Tile part indices: `O_FLOOR`. -/
def O_FLOOR : Nat := 0

/-- Tile part indices: `O_WESTWALL`. -/
def O_WESTWALL : Nat := 1

/-- Tile part indices: `O_NORTHWALL`. -/
def O_NORTHWALL : Nat := 2

/-- Tile part indices: `O_OBJECT`. -/
def O_OBJECT : Nat := 3

/-- Static per-tile-type material data: the `MapData` fields consumed by the
terrain engine (`MapData.cpp`).  The five block values are `_block[1..5]` as
stored by `MapData::setBlockValue`. -/
structure MapData where
  blockVision : Int
  blockHE : Int
  blockSmoke : Int
  blockFire : Int
  blockStun : Int
  isUfoDoor : Bool
  isDoor : Bool
  lightSource : Int
  terrainLevel : Int
  flammable : Int
  armor : Int
  loftID : Int → Nat

/-- `MapData::getBlock`: per-channel blockage table lookup; channels outside
the table (`DT_AP`) fall through to 0. -/
def MapData.getBlock (m : MapData) (t : ItemDamageType) : Int :=
  match t with
  | .DT_NONE => m.blockVision
  | .DT_HE => m.blockHE
  | .DT_SMOKE => m.blockSmoke
  | .DT_IN => m.blockFire
  | .DT_STUN => m.blockStun
  | .DT_AP => 0

/-- Unit factions. -/
inductive Faction where
  | player
  | hostile
  | neutral
deriving DecidableEq, Repr

/-- Battlefield unit state (external entity, referenced by the engine), with
the soldier/alien rule entity's stand/kneel heights and loft template
flattened in. -/
structure BattleUnit where
  pos : Position
  direction : Fin 8
  faction : Faction
  isOut : Bool
  kneeled : Bool
  standHeight : Int
  kneelHeight : Int
  loftemps : Nat
  visibleUnits : List Nat
  health : Int

instance : Inhabited BattleUnit :=
  ⟨⟨⟨0, 0, 0⟩, 0, .player, true, false, 0, 0, 0, [], 0⟩⟩

/-- Per-tile mutable state (the external `Tile` entity, referenced not owned
by the engine; `Tile.cpp` is not among the sources).  The four part slots
hold the material data of floor, west wall, north wall and object; `unit` is
the index of the occupying unit.  `shade` (consumed by the FOV cutoff) and
`flammability` (consumed by fire spread) are modelled from the spec as tile
attributes the engine reads. -/
structure Tile where
  floor : Option MapData
  westwall : Option MapData
  northwall : Option MapData
  object : Option MapData
  ufoDoorOpen : Nat → Bool
  light : Nat → Int
  fire : Int
  smoke : Int
  explosive : Int
  discovered : Bool
  checked : Bool
  shade : Int
  terrainLevel : Int
  flammability : Int
  unit : Option Nat
  items : Nat

/-- An empty tile: no parts, no unit, everything zeroed. -/
def emptyTile : Tile where
  floor := none
  westwall := none
  northwall := none
  object := none
  ufoDoorOpen := fun _ => false
  light := fun _ => 0
  fire := 0
  smoke := 0
  explosive := 0
  discovered := false
  checked := false
  shade := 0
  terrainLevel := 0
  flammability := 0
  unit := none
  items := 0

instance : Inhabited Tile := ⟨emptyTile⟩

/-- `Tile::getMapData(part)`: the material data of one of the four parts. -/
def Tile.getMapData (t : Tile) (part : Nat) : Option MapData :=
  if part = O_FLOOR then t.floor
  else if part = O_WESTWALL then t.westwall
  else if part = O_NORTHWALL then t.northwall
  else if part = O_OBJECT then t.object
  else none

/-- Modelled from the spec: `Tile::addLight` (Tile.cpp is not among the
sources).  The spec states the contribution is "added (not set) onto existing
layer value", so the value is added onto the tile's current accumulator for
that layer. -/
def Tile.addLight (t : Tile) (v : Int) (layer : Nat) : Tile :=
  { t with light := fun l => if l = layer then t.light l + v else t.light l }

/-- The battle-state container (`SavedBattleGame`): map dimensions, the dense
tile grid (as a total function, meaningful inside the bounds), the unit
roster, whose turn it is, global shade, and the shared loft voxel data. -/
structure SavedBattleGame where
  width : Nat
  length : Nat
  height : Nat
  tiles : Position → Tile
  units : List BattleUnit
  side : Faction
  globalShade : Int
  voxelData : Nat → Nat

/-- Whether a tile coordinate addresses a cell of the grid. -/
def SavedBattleGame.tileExists (s : SavedBattleGame) (p : Position) : Bool :=
  0 ≤ p.x && p.x < (s.width : Int) && 0 ≤ p.y && p.y < (s.length : Int)
    && 0 ≤ p.z && p.z < (s.height : Int)

/-- Modelled from the spec: `SavedBattleGame::getTile` — "any grid lookup
outside map bounds yields a null/absent result".  A present tile is handed
out as its coordinate; its data lives in `tiles`. -/
def SavedBattleGame.getTile (s : SavedBattleGame) (p : Position) :
    Option Position :=
  if s.tileExists p then some p else none

/-- Point update of the tile grid. -/
def SavedBattleGame.updTile (s : SavedBattleGame) (p : Position)
    (f : Tile → Tile) : SavedBattleGame :=
  { s with tiles := fun q => if q = p then f (s.tiles q) else s.tiles q }

/-- Unit lookup by roster index. -/
def SavedBattleGame.unitAt (s : SavedBattleGame) (i : Nat) : BattleUnit :=
  s.units.getD i default

/-- Point update of the unit roster. -/
def SavedBattleGame.updUnit (s : SavedBattleGame) (i : Nat)
    (f : BattleUnit → BattleUnit) : SavedBattleGame :=
  { s with units := s.units.set i (f (s.unitAt i)) }

/-- The grid enumeration the engine's `for (i < width*length*height)` loops
walk, as the list of in-bounds coordinates. -/
def SavedBattleGame.allPositions (s : SavedBattleGame) : List Position :=
  (List.range s.height).flatMap fun z =>
    (List.range s.length).flatMap fun y =>
      (List.range s.width).map fun x =>
        ⟨Int.ofNat x, Int.ofNat y, Int.ofNat z⟩

/-- `TerrainModifier::blockage`: the opacity one wall or floor part of a tile
presents to a channel.  A null tile is "probably outside the map" and blocks
nothing; floors present 15 to high explosive and 255 to everything else; an
open UFO door blocks nothing. -/
def blockage (s : SavedBattleGame) (tile : Option Position) (part : Nat)
    (type : ItemDamageType) : Int :=
  match tile with
  | none => 0
  | some p =>
    let t := s.tiles p
    if part = O_FLOOR ∧ (t.getMapData O_FLOOR).isSome then
      if type = .DT_HE then 15 else 255
    else
      let b : Int :=
        match t.getMapData part with
        | some m => m.getBlock type
        | none => 0
      if t.ufoDoorOpen part then 0 else b

/-- The x components of `vectorToDirection`'s 8-entry direction table. -/
def dirTableX : List Int := [0, 1, 1, 1, 0, -1, -1, -1]

/-- The y components of `vectorToDirection`'s 8-entry direction table. -/
def dirTableY : List Int := [1, 1, 0, -1, -1, -1, 0, 1]

/-- One table entry as the loop at iteration `i` sees it: inside the tables
for `i < 8`, and the indeterminate values of the out-of-bounds read at
`i = 8` (`junkX`, `junkY`). -/
def dirEntry (junkX junkY : Int) (i : Nat) : Int × Int :=
  match dirTableX.get? i, dirTableY.get? i with
  | some a, some b => (a, b)
  | _, _ => (junkX, junkY)

/-- One iteration of `vectorToDirection`'s loop: keep an already-found
direction, else return `i` when entry `i` matches the vector. -/
def vtdStep (junkX junkY : Int) (v : Position) (acc : Int) (i : Nat) : Int :=
  if acc ≠ -1 then acc
  else
    let e := dirEntry junkX junkY i
    if e.1 = v.x ∧ e.2 = v.y then (i : Int) else -1

/-- `TerrainModifier::vectorToDirection`: classifies `(Δx, Δy)` against the
direction table.  The loop iterates `i = 0..8` over the 8-entry tables and
returns the first matching index (so a non-matching vector may still match
the out-of-bounds pair and yield 8); `z` is ignored. -/
def vectorToDirection (junkX junkY : Int) (v : Position) : Int :=
  (List.range 9).foldl (vtdStep junkX junkY v) (-1)

/-- The 8 unit octant vectors of the direction table, as `(Δx, Δy)` pairs. -/
def octantVectors : List (Int × Int) :=
  [(0, 1), (1, 1), (1, 0), (1, -1), (0, -1), (-1, -1), (-1, 0), (-1, 1)]

/-- The number of table iterations — hence table index reads — the
`vectorToDirection` loop performs on a given vector: it stops after the first
matching entry and otherwise runs all 9 iterations, the last of which reads
index 8 of the 8-entry tables. -/
def vectorToDirectionReads (v : Position) : Nat :=
  match (dirTableX.zip dirTableY).findIdx?
      (fun e => e.1 = v.x && e.2 = v.y) with
  | some i => i + 1
  | none => 9

/-- `TerrainModifier::verticalBlockage`: power blocked between two tiles on
different levels; only floor parts count, over every level strictly between
(exclusive of the start level, inclusive of the end level in the traversal
direction). -/
def verticalBlockage (s : SavedBattleGame) (startTile endTile : Option Position)
    (type : ItemDamageType) : Int :=
  match startTile, endTile with
  | some st, some et =>
    let x := st.x
    let y := st.y
    if et.z < st.z then
      ((List.range (st.z - et.z).toNat).map fun k =>
        blockage s (s.getTile ⟨x, y, st.z - (k : Int)⟩) O_FLOOR type).sum
    else if st.z < et.z then
      ((List.range (et.z - st.z).toNat).map fun k =>
        blockage s (s.getTile ⟨x, y, st.z + 1 + (k : Int)⟩) O_FLOOR type).sum
    else 0
  | _, _ => 0

/-- `TerrainModifier::horizontalBlockage`: power blocked between two tiles on
the same level, by the direction their position difference classifies to.
Cardinal directions read the single crossed wall; diagonals average the two
direct walls and the two cutting-corner walls; every other classification
(including `-1` and the out-of-bounds 8) falls through to 0. -/
def horizontalBlockage (s : SavedBattleGame) (junkX junkY : Int)
    (startTile endTile : Option Position) (type : ItemDamageType) : Int :=
  match startTile, endTile with
  | some st, some et =>
    let dir := vectorToDirection junkX junkY (et - st)
    if dir = 0 then
      blockage s (some st) O_NORTHWALL type
    else if dir = 1 then
      (blockage s (some st) O_NORTHWALL type
          + blockage s (some et) O_WESTWALL type).tdiv 2
        + (blockage s (s.getTile (st + ⟨1, 0, 0⟩)) O_WESTWALL type
          + blockage s (s.getTile (st + ⟨1, 0, 0⟩)) O_NORTHWALL type).tdiv 2
    else if dir = 2 then
      blockage s (some et) O_WESTWALL type
    else if dir = 3 then
      (blockage s (some et) O_WESTWALL type
          + blockage s (some et) O_NORTHWALL type).tdiv 2
        + (blockage s (s.getTile (st + ⟨1, 0, 0⟩)) O_WESTWALL type
          + blockage s (s.getTile (st + ⟨0, -1, 0⟩)) O_NORTHWALL type).tdiv 2
    else if dir = 4 then
      blockage s (some et) O_NORTHWALL type
    else if dir = 5 then
      (blockage s (some et) O_NORTHWALL type
          + blockage s (some st) O_WESTWALL type).tdiv 2
        + (blockage s (s.getTile (st + ⟨0, -1, 0⟩)) O_WESTWALL type
          + blockage s (s.getTile (st + ⟨0, -1, 0⟩)) O_NORTHWALL type).tdiv 2
    else if dir = 6 then
      blockage s (some st) O_WESTWALL type
    else if dir = 7 then
      (blockage s (some st) O_WESTWALL type
          + blockage s (some st) O_NORTHWALL type).tdiv 2
        + (blockage s (s.getTile (st + ⟨0, 1, 0⟩)) O_WESTWALL type
          + blockage s (s.getTile (st + ⟨-1, 0, 0⟩)) O_NORTHWALL type).tdiv 2
    else 0
  | _, _ => 0

/-- The integers `0, 1, ..., n-1` as a list. -/
def castRange (n : Nat) : List Int :=
  (List.range n).map Int.ofNat

/-- The values `0, 1, ..., n` of a C loop `for (int k = 0; k <= n; k++)`
(empty when `n < 0`). -/
def intRangeIncl (n : Int) : List Int :=
  castRange (n + 1).toNat

/-- Embeds `int(floor(sqrt(float(n)) + 0.5))`: the square root of `n` rounded
to the nearest integer.  `4*n` is never an odd square, so the real value is
never exactly halfway between integers and the identity
`⌊√n + 1/2⌋ = (⌊√(4n)⌋ + 1) / 2` gives the exact result; for the argument
sizes light powers produce, the float computation is exact as well. -/
def roundSqrt (n : Nat) : Nat := (Nat.sqrt (4 * n) + 1) / 2

/-- Bounds-checked light add: the `if (_save->getTile(...)) ..->addLight(..)`
step of `TerrainModifier::addLight`. -/
def condAddLight (s : SavedBattleGame) (p : Position) (v : Int) (layer : Nat) :
    SavedBattleGame :=
  match s.getTile p with
  | some q => s.updTile q (fun t => t.addLight v layer)
  | none => s

/-- The innermost block of `TerrainModifier::addLight`: the contribution
`power - round(√(x²+y²))` added at the four quadrant mirrors of offset
`(x, y)` on level `z`. -/
def quadAdd (s : SavedBattleGame) (center : Position) (power x y z : Int)
    (layer : Nat) : SavedBattleGame :=
  let distance : Int := (roundSqrt (x * x + y * y).toNat : Int)
  let s1 := condAddLight s ⟨center.x + x, center.y + y, z⟩ (power - distance) layer
  let s2 := condAddLight s1 ⟨center.x - x, center.y - y, z⟩ (power - distance) layer
  let s3 := condAddLight s2 ⟨center.x - x, center.y + y, z⟩ (power - distance) layer
  condAddLight s3 ⟨center.x + x, center.y - y, z⟩ (power - distance) layer

/-- `TerrainModifier::addLight`: radial light pattern around `center`, looped
over the positive quadrant and mirrored into the other three, applied on
every z-level.  Dimensions are immutable, so the z loop reads the entry
state's height. -/
def addLight (s : SavedBattleGame) (center : Position) (power : Int)
    (layer : Nat) : SavedBattleGame :=
  (intRangeIncl power).foldl
    (fun s1 x =>
      (intRangeIncl power).foldl
        (fun s2 y =>
          (castRange s.height).foldl
            (fun s3 z => quadAdd s3 center power x y z layer) s2)
        s1)
    s

/-- `TerrainModifier::calculateSunShading(Tile*)`: ambient layer, power
`15 - globalShade`, with 2 subtracted when shade is at most 5 and the
vertical ray from the top of the map down to the tile is blocked. -/
def calculateSunShadingTile (s : SavedBattleGame) (p : Position) :
    SavedBattleGame :=
  let layer : Nat := 0
  let power : Int := 15 - s.globalShade
  let power :=
    if s.globalShade ≤ 5 then
      if verticalBlockage s (s.getTile ⟨p.x, p.y, (s.height : Int) - 1⟩)
          (some p) .DT_NONE ≠ 0 then
        power - 2
      else power
    else power
  s.updTile p (fun t => t.addLight power layer)

/-- Modelled from the spec: `Tile::resetLight` zeroes one light layer. -/
def Tile.resetLight (t : Tile) (layer : Nat) : Tile :=
  { t with light := fun l => if l = layer then 0 else t.light l }

/-- `TerrainModifier::calculateTerrainLighting`: static layer; skipped in
full daylight, else the layer is zeroed and every light-emitting floor or
object part and every burning tile radiates via `addLight`.  The final
cache-invalidation pass (`checkForChangedLight`) only signals the external
renderer and carries no modelled state. -/
def calculateTerrainLighting (s : SavedBattleGame) : SavedBattleGame :=
  let layer : Nat := 1
  let fireLightPower : Int := 15
  if s.globalShade < 1 then s
  else
    let s1 := s.allPositions.foldl
      (fun a p => a.updTile p (fun t => t.resetLight layer)) s
    s.allPositions.foldl
      (fun a p =>
        let a1 :=
          match (a.tiles p).floor with
          | some m => if m.lightSource ≠ 0 then addLight a p m.lightSource layer else a
          | none => a
        let a2 :=
          match (a1.tiles p).object with
          | some m => if m.lightSource ≠ 0 then addLight a1 p m.lightSource layer else a1
          | none => a1
        if (a2.tiles p).fire ≠ 0 then addLight a2 p fireLightPower layer else a2)
      s1

/-- One part probe of `TerrainModifier::voxelCheck`'s terrain loop: the part
exists and its loft footprint covers the voxel's local bit. -/
def voxelCheckPartHit (s : SavedBattleGame) (t : Tile) (voxel : Position)
    (i : Nat) : Bool :=
  match t.getMapData i with
  | some mp =>
    let xbit := (15 - voxel.x.tmod 16).toNat
    let ybit := (15 - voxel.y.tmod 16).toNat
    let idx := mp.loftID ((voxel.z.tmod 24).tdiv 2) * 16 + ybit
    s.voxelData idx &&& (1 <<< xbit) = 1 <<< xbit
  | none => false

/-- `TerrainModifier::voxelCheck`: what a single voxel holds — 5 when the
voxel's tile (obtained by C integer division by 16,16,24, truncating toward
zero) does not exist, 4 for a unit body hit, 0–3 for the first matching
terrain part in the fixed order floor, west wall, north wall, object, and −1
for nothing. -/
def voxelCheck (s : SavedBattleGame) (voxel : Position)
    (excludeUnit : Option Nat) : Int :=
  match s.getTile ⟨voxel.x.tdiv 16, voxel.y.tdiv 16, voxel.z.tdiv 24⟩ with
  | none => 5
  | some tp =>
    let tile := s.tiles tp
    let unitHit : Bool :=
      match tile.unit with
      | some ui =>
        if some ui ≠ excludeUnit then
          let u := s.unitAt ui
          if voxel.z.tmod 24
              < (if u.kneeled then u.kneelHeight else u.standHeight) then
            let xbit := (15 - voxel.x.tmod 16).toNat
            let ybit := (15 - voxel.y.tmod 16).toNat
            let idx := u.loftemps * 16 + ybit
            s.voxelData idx &&& (1 <<< xbit) = 1 <<< xbit
          else false
        else false
      | none => false
    if unitHit then 4
    else
      match (List.range 4).find? (voxelCheckPartHit s tile voxel) with
      | some i => (i : Int)
      | none => -1

/-- The stepping loop of `TerrainModifier::calculateLine`: march the driving
axis one voxel at a time, testing each visited voxel and accumulating drift
in the two shallow axes.  The fuel counts the remaining driving-axis steps
(`|x1 - x|`), which is exactly when the C loop's `x != x1` guard stops. -/
def lineLoop (s : SavedBattleGame) (excl : Option Nat) (swapXY swapXZ : Bool)
    (stepX stepY stepZ deltaX deltaY deltaZ : Int) :
    Int → Int → Int → Int → Int → Nat → Int
  | _, _, _, _, _, 0 => -1
  | x, y, z, driftXY, driftXZ, fuel + 1 =>
    let c0 : Position := ⟨x, y, z⟩
    let c1 : Position := if swapXZ then ⟨c0.z, c0.y, c0.x⟩ else c0
    let c2 : Position := if swapXY then ⟨c1.y, c1.x, c1.z⟩ else c1
    let result := voxelCheck s c2 excl
    if result ≠ -1 then result
    else
      let dxy := driftXY - deltaY
      let dxz := driftXZ - deltaZ
      let y2 := if dxy < 0 then y + stepY else y
      let dxy2 := if dxy < 0 then dxy + deltaX else dxy
      let z2 := if dxz < 0 then z + stepZ else z
      let dxz2 := if dxz < 0 then dxz + deltaX else dxz
      lineLoop s excl swapXY swapXZ stepX stepY stepZ deltaX deltaY deltaZ
        (x + stepX) y2 z2 dxy2 dxz2 fuel

/-- `TerrainModifier::calculateLine`: 3D Bresenham between two voxel
coordinates, returning the first non-empty `voxelCheck` result or −1.  The
trajectory output is omitted: the only call site in these sources passes
null for it. -/
def calculateLine (s : SavedBattleGame) (origin target : Position)
    (excl : Option Nat) : Int :=
  let swapXY := (target.y - origin.y).natAbs > (target.x - origin.x).natAbs
  let x0a := if swapXY then origin.y else origin.x
  let y0 := if swapXY then origin.x else origin.y
  let x1a := if swapXY then target.y else target.x
  let y1 := if swapXY then target.x else target.y
  let swapXZ := (target.z - origin.z).natAbs > (x1a - x0a).natAbs
  let x0 := if swapXZ then origin.z else x0a
  let z0 := if swapXZ then x0a else origin.z
  let x1 := if swapXZ then target.z else x1a
  let z1 := if swapXZ then x1a else target.z
  let deltaX : Int := (x1 - x0).natAbs
  let deltaY : Int := (y1 - y0).natAbs
  let deltaZ : Int := (z1 - z0).natAbs
  let driftXY := deltaX.tdiv 2
  let driftXZ := deltaX.tdiv 2
  let stepX : Int := if x0 > x1 then -1 else 1
  let stepY : Int := if y0 > y1 then -1 else 1
  let stepZ : Int := if z0 > z1 then -1 else 1
  lineLoop s excl swapXY swapXZ stepX stepY stepZ deltaX deltaY deltaZ
    x0 y0 z0 driftXY driftXZ (x1 - x0).natAbs

/-- Exact rational arithmetic on unreduced fractions (denominator kept
positive by construction, no gcd normalization): embeds the double-precision
intermediate values of the ray marches.  Unlike the normalized rational type
it evaluates by plain kernel reduction, so concrete sweeps can be checked by
`decide`.  The floor of a fraction with positive denominator is the floor
division of numerator by denominator, which is what C's `floor` yields. -/
structure Frac where
  num : Int
  den : Int

/-- An integer as a fraction. -/
def Frac.ofInt (n : Int) : Frac := ⟨n, 1⟩

/-- Fraction addition (cross-multiplied, unreduced). -/
def Frac.add (a b : Frac) : Frac :=
  ⟨a.num * b.den + b.num * a.den, a.den * b.den⟩

/-- Fraction multiplication (unreduced). -/
def Frac.mul (a b : Frac) : Frac := ⟨a.num * b.num, a.den * b.den⟩

/-- Halving a fraction (the `vz / 2.0` step). -/
def Frac.half (a : Frac) : Frac := ⟨a.num, a.den * 2⟩

/-- `floor` of a fraction with positive denominator. -/
def Frac.floor (a : Frac) : Int := Int.fdiv a.num a.den

instance : Add Frac := ⟨Frac.add⟩

instance : Mul Frac := ⟨Frac.mul⟩

/-- The environment of a run: the double-precision trigonometry table the
sweeps consume (`cos(a * M_PI / 180.0)` and `sin(a * M_PI / 180.0)` for the
integer-valued angles `a` the loops produce), represented by rational values,
and the indeterminate pair the out-of-bounds table read of
`vectorToDirection` yields.  General theorems below hold for every
environment. -/
structure Env where
  cosDeg : Int → Frac
  sinDeg : Int → Frac
  junkX : Int
  junkY : Int

/-- The values of a C loop `for (a = start; a <= stop; a += step)` for a
positive step. -/
def stepRange (start stop step : Int) : List Int :=
  (castRange ((stop - start).tdiv step + 1).toNat).map
    fun k => start + step * k

/-- The per-octant horizontal sweep start angles of `calculateFOV`. -/
def startAngle (d : Fin 8) : Int :=
  [45, 0, -45, 270, 225, 180, 135, 90].getD d.val 0

/-- The per-octant horizontal sweep end angles of `calculateFOV`. -/
def endAngle (d : Fin 8) : Int :=
  [135, 90, 45, 360, 315, 270, 225, 180].getD d.val 0

/-- `TerrainModifier::checkForVisibleUnits`: if the tile's occupant is an
eligible opposing unit, cast a voxel ray between eye points and add the
occupant to the looking unit's visible set when the ray hits nothing or hits
the occupant on its own tile. -/
def checkForVisibleUnits (s : SavedBattleGame) (uidx : Nat)
    (tilePos : Position) : SavedBattleGame :=
  let unit := s.unitAt uidx
  match (s.tiles tilePos).unit with
  | none => s
  | some buIdx =>
    let bu := s.unitAt buIdx
    if bu.isOut then s
    else if unit.faction = .player
        ∧ (bu.faction = .player ∨ bu.faction = .neutral) then s
    else if unit.faction = .hostile ∧ bu.faction = .hostile then s
    else
      let originVoxel : Position :=
        ⟨unit.pos.x * 16 + 8, unit.pos.y * 16 + 8,
          unit.pos.z * 24 - (s.tiles tilePos).terrainLevel
            + (if unit.kneeled then unit.kneelHeight else unit.standHeight)⟩
      let targetVoxel : Position :=
        ⟨bu.pos.x * 16 + 8, bu.pos.y * 16 + 8,
          bu.pos.z * 24 - (s.tiles bu.pos).terrainLevel
            + (if bu.kneeled then bu.kneelHeight else bu.standHeight)⟩
      let test := calculateLine s originVoxel targetVoxel none
      let hitPosition : Position :=
        ⟨targetVoxel.x.tdiv 16, targetVoxel.y.tdiv 16, targetVoxel.z.tdiv 24⟩
      if test = -1 ∨ (test = 4 ∧ bu.pos = hitPosition) then
        s.updUnit uidx
          (fun u => { u with visibleUnits := u.visibleUnits ++ [buIdx] })
      else s

/-- Whether a tile part is a normal or UFO door (the door-reveal test of the
FOV sweep). -/
def isDoorPart (t : Tile) (part : Nat) : Bool :=
  match t.getMapData part with
  | some m => m.isDoor || m.isUfoDoor
  | none => false

/-- The door-reveal step of the FOV sweep: if the tile at `pos` exists and
the given wall part is a normal or UFO door, mark that tile discovered. -/
def SavedBattleGame.revealDoorAt (s : SavedBattleGame) (pos : Position) (part : Nat) :
    SavedBattleGame :=
  match s.getTile pos with
  | some t1 =>
    if isDoorPart (s.tiles t1) part then
      s.updTile t1 (fun t => { t with discovered := true })
    else s
  | none => s

/-- The first-visit block of the FOV sweep on a newly reached tile: set the
sweep flag, check for opposing units, and for player-faction units mark the
tile discovered and reveal adjacent east/south door walls. -/
def fovVisit (s : SavedBattleGame) (uidx : Nat) (tileX tileY tileZ : Int)
    (dest : Position) : SavedBattleGame :=
  let sA := s.updTile dest (fun t => { t with checked := true })
  let sB := checkForVisibleUnits sA uidx dest
  if (s.unitAt uidx).faction = .player then
    ((sB.updTile dest (fun t => { t with discovered := true })).revealDoorAt
        ⟨tileX + 1, tileY, tileZ⟩ O_WESTWALL).revealDoorAt
      ⟨tileX, tileY - 1, tileZ⟩ O_NORTHWALL
  else sB

/-- One ray of the FOV sweep (`while (power_ > 0)` body): step outward along
the ray, paying 1 per step plus horizontal, vertical and after-the-fact
object blockage; an in-bounds tile reached with positive power, shade below
10 and an unset sweep flag receives the `fovVisit` block.  Each iteration
decrements the power budget by at least one, so with the material blockage
values the grid presents (non-negative) the initial power of 20 as fuel
makes the fuel guard coincide with the C loop's `power_ > 0` guard. -/
def fovMarchLoop (env : Env) (uidx : Nat)
    (centerX centerY centerZ cosTe sinTe cosFi sinFi : Frac) :
    SavedBattleGame → Option Position → Int → Int → Nat → SavedBattleGame
  | s, _, _, _, 0 => s
  | s, origin, l, power, fuel + 1 =>
    if power ≤ 0 then s
    else
      let l1 := l + 1
      let vx := centerX + Frac.ofInt l1 * cosTe * cosFi
      let vy := centerY + Frac.ofInt l1 * sinTe * cosFi
      let vz := centerZ + Frac.ofInt l1 * sinFi
      let tileZ : Int := vz.half.floor
      let tileX : Int := vx.floor
      let tileY : Int := vy.floor
      let power1 := power - 1
      match s.getTile ⟨tileX, tileY, tileZ⟩ with
      | none => s
      | some dest =>
        let power2 := power1
          - horizontalBlockage s env.junkX env.junkY origin (some dest) .DT_NONE
        let power3 := power2 - verticalBlockage s origin (some dest) .DT_NONE
        let objectFalloff : Int :=
          match (s.tiles dest).getMapData O_OBJECT with
          | some m => m.getBlock .DT_NONE
          | none => 0
        let s1 :=
          if power3 > 0 ∧ (s.tiles dest).shade < 10
              ∧ (s.tiles dest).checked = false then
            fovVisit s uidx tileX tileY tileZ dest
          else s
        fovMarchLoop env uidx centerX centerY centerZ cosTe sinTe cosFi sinFi
          s1 (some dest) l1 (power3 - objectFalloff) fuel

/-- The flag-clearing pass at the head of the FOV sweep: every grid tile's
sweep-local `checked` flag is set to false. -/
def clearChecked (s : SavedBattleGame) : SavedBattleGame :=
  s.allPositions.foldl
    (fun a p => a.updTile p (fun t => { t with checked := false })) s

/-- The angular double loop of `calculateFOV`: vertical angle in 6° steps,
horizontal angle in 3° steps over the facing's 90° cone, one
`fovMarchLoop` ray per pair. -/
def fovSweep (env : Env) (uidx : Nat) (u : BattleUnit)
    (centerX centerY centerZ : Frac) (startFi : Int) (s : SavedBattleGame) :
    SavedBattleGame :=
  (stepRange startFi 60 6).foldl
    (fun sa fi =>
      (stepRange (startAngle u.direction) (endAngle u.direction) 3).foldl
        (fun sb te =>
          fovMarchLoop env uidx centerX centerY centerZ
            (env.cosDeg te) (env.sinDeg te) (env.cosDeg fi) (env.sinDeg fi)
            sb (sb.getTile u.pos) 0 20 20)
        sa)
    s

/-- `TerrainModifier::calculateFOV(BattleUnit*)`: mark the unit's own tile
discovered for player-faction units, clear the unit's visible set, clear
every tile's sweep flag, then run the angular sweep (90° wide horizontally
around the facing, −90°..60° vertically, or 0°..60° on the ground floor). -/
def calculateFOV (env : Env) (s : SavedBattleGame) (uidx : Nat) :
    SavedBattleGame :=
  let u := s.unitAt uidx
  let centerZ : Frac := ⟨u.pos.z * 2 * 2 + 3, 2⟩
  let centerX : Frac := ⟨u.pos.x * 2 + 1, 2⟩
  let centerY : Frac := ⟨u.pos.y * 2 + 1, 2⟩
  let startFi : Int := if u.pos.z = 0 then 0 else -90
  let s0 :=
    if u.faction = .player then
      s.updTile u.pos (fun t => { t with discovered := true })
    else s
  let s1 := s0.updUnit uidx (fun v => { v with visibleUnits := [] })
  let s2 := clearChecked s1
  fovSweep env uidx u centerX centerY centerZ startFi s2

/-- `TerrainModifier::calculateFOV(const Position&)`: recompute FOV for every
unit of the side whose turn it is (the position argument is unused by the
source). -/
def calculateFOVAll (env : Env) (s : SavedBattleGame) : SavedBattleGame :=
  (List.range s.units.length).foldl
    (fun a i => if (a.unitAt i).faction = a.side then calculateFOV env a i else a)
    s

/-- Modelled from the spec: the injectable uniform random source.  Integer
draws (`RNG::generate(min, max)`) take the next value of the integer stream;
real-valued draws (`RNG::boxMuller`, the real-valued `RNG::generate`) take
the next value of the rational stream.  The streams stand for the sampled
values; call sites record the distribution parameters. -/
structure RNG where
  intSeq : Nat → Int
  ratSeq : Nat → Frac
  intIdx : Nat
  ratIdx : Nat

/-- Draw the next integer sample. -/
def RNG.gen (r : RNG) : Int × RNG :=
  (r.intSeq r.intIdx, { r with intIdx := r.intIdx + 1 })

/-- Draw the next real-valued sample. -/
def RNG.genQ (r : RNG) : Frac × RNG :=
  (r.ratSeq r.ratIdx, { r with ratIdx := r.ratIdx + 1 })

/-- A C cast of a double to int truncates toward zero. -/
def ratTrunc (q : Frac) : Int := q.num.tdiv q.den

/-- Negation of a fraction (the `base *= -1` fold of the folded normal). -/
def Frac.neg (a : Frac) : Frac := ⟨-a.num, a.den⟩

/-- `a < b` on fractions with positive denominators. -/
def Frac.lt (a b : Frac) : Bool := a.num * b.den < b.num * a.den

/-- An integer compared with a fraction with positive denominator. -/
def Frac.intLt (n : Int) (a : Frac) : Bool := n * a.den < a.num

/-- Whether a fraction with positive denominator is negative. -/
def Frac.isNeg (a : Frac) : Bool := a.num < 0

/-- Observable terrain/unit effects, recorded as an event trace by the
propagation entry points (the order of events is the order of the source's
calls). -/
inductive Event where
  | damageTilePart (p : Position) (part : Nat)
  | damageUnit (i : Nat)
  | setExplosive (p : Position)
  | addSmoke (p : Position)
  | ignite (p : Position)
  | detonate (p : Position)
  | attemptIgnite (src tgt : Position)
  | advanceTile (p : Position)
deriving DecidableEq, Repr

/-- Modelled from the spec: `Tile::damage` applies a rolled damage value to
one terrain part; a part whose armor is lower than the damage is
destroyed. -/
def Tile.damagePart (t : Tile) (part : Nat) (v : Int) : Tile :=
  let hit : Option MapData → Option MapData := fun o =>
    match o with
    | some m => if m.armor < v then none else some m
    | none => none
  if part = O_FLOOR then { t with floor := hit t.floor }
  else if part = O_WESTWALL then { t with westwall := hit t.westwall }
  else if part = O_NORTHWALL then { t with northwall := hit t.northwall }
  else if part = O_OBJECT then { t with object := hit t.object }
  else t

/-- Modelled from the spec: `Tile::setExplosive` marks the tile for deferred
structural damage. -/
def Tile.setExplosive (t : Tile) (v : Int) : Tile := { t with explosive := v }

/-- Modelled from the spec: `Tile::detonate` resolves the tile's deferred
explosive damage in one commit — each part whose armor is lower than the
deferred power is destroyed — and clears the accumulator. -/
def Tile.detonate (t : Tile) : Tile :=
  if t.explosive > 0 then
    let v := t.explosive
    let d := ((t.damagePart O_FLOOR v).damagePart O_WESTWALL v).damagePart
      O_NORTHWALL v
    { (d.damagePart O_OBJECT v) with explosive := 0 }
  else t

/-- Modelled from the spec: `Tile::ignite` sets the tile burning. -/
def Tile.ignite (t : Tile) : Tile := { t with fire := 1 }

/-- Modelled from the spec: `Tile::prepareNewTurn` advances the tile's own
fire/smoke by one turn (burn-down and smoke decay). -/
def Tile.prepareNewTurnTile (t : Tile) : Tile :=
  { t with fire := max (t.fire - 1) 0, smoke := max (t.smoke - 1) 0 }

/-- Point damage to a unit (`BattleUnit::damage`): health reduced by the
rolled amount. -/
def SavedBattleGame.damageUnitAt (s : SavedBattleGame) (i : Nat) (v : Int) :
    SavedBattleGame :=
  s.updUnit i (fun u => { u with health := u.health - v })

/-- The per-channel tile effect of one `explode` ray step, applied when
power is still positive after the wall blockage: high explosive defers
structural damage on the tile and rolls damage on an occupying unit, smoke
adds smoke turns below the cap, incendiary ignites a tile not on fire.  The
returned events are this step's own contributions. -/
def explodeVisit (type : ItemDamageType) (s : SavedBattleGame) (rng : RNG)
    (dest : Position) (power1 : Int) : SavedBattleGame × RNG × List Event :=
  if power1 > 0 then
    if type = .DT_HE then
      match ((s.updTile dest
          (fun t => t.setExplosive (power1.tdiv 2))).tiles dest).unit with
      | some ui =>
        let (v, rngA) := rng.genQ
        ((s.updTile dest
            (fun t => t.setExplosive (power1.tdiv 2))).damageUnitAt ui
          (ratTrunc v), rngA,
          [Event.setExplosive dest, Event.damageUnit ui])
      | none => (s.updTile dest (fun t => t.setExplosive (power1.tdiv 2)),
          rng, [Event.setExplosive dest])
    else if type = .DT_SMOKE then
      if (s.tiles dest).smoke < 10 then
        let (v, rngA) := rng.gen
        (s.updTile dest (fun t => { t with smoke := t.smoke + v }), rngA,
          [Event.addSmoke dest])
      else (s, rng, [])
    else if type = .DT_IN then
      if (s.tiles dest).fire = 0 then
        (s.updTile dest Tile.ignite, rng, [Event.ignite dest])
      else (s, rng, [])
    else (s, rng, [])
  else (s, rng, [])

/-- One ray of `TerrainModifier::explode`'s circular fan, marching tile by
tile in the horizontal plane while power remains and `l` is within
`maxRadius`: horizontal blockage first, then the per-channel `explodeVisit`
effect, then the flat decay of 10 and the destination's after-the-fact
object blockage.  The `l <= maxRadius` guard bounds the iterations, which
the fuel mirrors exactly. -/
def explodeMarch (env : Env) (type : ItemDamageType) (maxRadius : Int)
    (centerX centerY centerZ cosTe sinTe : Frac) :
    SavedBattleGame → RNG → List Event → Option Position → Int → Int → Nat →
      SavedBattleGame × RNG × List Event
  | s, rng, tr, _, _, _, 0 => (s, rng, tr)
  | s, rng, tr, origin, l, power, fuel + 1 =>
    if power ≤ 0 ∨ maxRadius < l then (s, rng, tr)
    else
      let vx := centerX + Frac.ofInt l * cosTe
      let vy := centerY + Frac.ofInt l * sinTe
      let vz := centerZ
      let tileZ : Int := vz.floor
      let tileX : Int := vx.floor
      let tileY : Int := vy.floor
      match s.getTile ⟨tileX, tileY, tileZ⟩ with
      | none => (s, rng, tr)
      | some dest =>
        let power1 := power
          - horizontalBlockage s env.junkX env.junkY origin (some dest) type
        let step := explodeVisit type s rng dest power1
        let s2 := step.1
        let rng2 := step.2.1
        let tr2 := tr ++ step.2.2
        let power2 := power1 - 10
        let power3 := power2 -
          (match (s2.tiles dest).getMapData O_OBJECT with
            | some m => m.getBlock type
            | none => 0)
        explodeMarch env type maxRadius centerX centerY centerZ cosTe sinTe
          s2 rng2 tr2 (some dest) (l + 1) power3 fuel

/-- The 121-ray circular fan of `TerrainModifier::explode` (3° steps over
0..360 inclusive). -/
def explodeRays (env : Env) (type : ItemDamageType) (maxRadius : Int)
    (center : Position) (power : Int) (s : SavedBattleGame) (rng : RNG) :
    SavedBattleGame × RNG × List Event :=
  let centerZ : Frac := ⟨center.z.tdiv 24 * 2 + 1, 2⟩
  let centerX : Frac := ⟨center.x.tdiv 16 * 2 + 1, 2⟩
  let centerY : Frac := ⟨center.y.tdiv 16 * 2 + 1, 2⟩
  (stepRange 0 360 3).foldl
    (fun acc te =>
      explodeMarch env type maxRadius centerX centerY centerZ
        (env.cosDeg te) (env.sinDeg te)
        acc.1 acc.2.1 acc.2.2 (acc.1.getTile center) 0 power
        (maxRadius + 1).toNat)
    (s, rng, [])

/-- The one-pass deferred-damage commit at the end of a high-explosive
`explode`: every grid tile is detonated once, in grid order. -/
def detonateAll (s : SavedBattleGame) : SavedBattleGame × List Event :=
  (s.allPositions.foldl (fun a p => a.updTile p Tile.detonate) s,
    s.allPositions.map Event.detonate)

/-- `TerrainModifier::explode`: armor-piercing is a single-point voxel test
with direct damage; every other channel radiates the circular ray fan (with
incendiary power halved up front), and high explosive then commits all
deferred structural damage in one `detonateAll` pass; finally FOV for the
active side and the static lighting layer are recomputed. -/
def explode (env : Env) (s : SavedBattleGame) (rng : RNG) (center : Position)
    (power : Int) (type : ItemDamageType) (maxRadius : Int)
    (excl : Option Nat) : SavedBattleGame × RNG × List Event :=
  let tp : Position := ⟨center.x.tdiv 16, center.y.tdiv 16, center.z.tdiv 24⟩
  let afterMain : SavedBattleGame × RNG × List Event :=
    if type = .DT_AP then
      let part := voxelCheck s center excl
      if 0 ≤ part ∧ part ≤ 3 then
        let (v, rng1) := rng.gen
        (s.updTile tp (fun t => t.damagePart part.toNat v), rng1,
          [Event.damageTilePart tp part.toNat])
      else if part = 4 then
        match (s.tiles tp).unit with
        | some ui =>
          let (v, rng1) := rng.gen
          (s.damageUnitAt ui v, rng1, [Event.damageUnit ui])
        | none => (s, rng, [])
      else (s, rng, [])
    else
      let power1 := if type = .DT_IN then power.tdiv 2 else power
      let (s1, rng1, tr1) := explodeRays env type maxRadius center power1 s rng
      if type = .DT_HE then
        let (s2, tr2) := detonateAll s1
        (s2, rng1, tr1 ++ tr2)
      else (s1, rng1, tr1)
  let s3 := calculateFOVAll env afterMain.1
  (calculateTerrainLighting s3, afterMain.2.1, afterMain.2.2)

/-- One neighbor-ignition attempt of `prepareNewTurn`'s fire loop: an
existing, not-burning neighbor is attempted; it ignites exactly when the
incendiary-channel horizontal blockage from the fire tile is zero, the
flammability is below 255, the folded-normal sample exceeds the
flammability, and the secondary uniform roll is below 2. -/
def igniteAttempt (env : Env) (s : SavedBattleGame) (rng : RNG)
    (src tgt : Position) : SavedBattleGame × RNG × List Event :=
  match s.getTile tgt with
  | none => (s, rng, [])
  | some t =>
    if (s.tiles t).fire = 0 then
      if horizontalBlockage s env.junkX env.junkY (s.getTile src) (some t)
          .DT_IN = 0 then
        if (s.tiles t).flammability < 255 then
          if Frac.intLt (s.tiles t).flammability
              (if (rng.genQ.1).isNeg then (rng.genQ.1).neg
                else rng.genQ.1) then
            if (rng.genQ.2).gen.1 < 2 then
              (s.updTile t Tile.ignite, (rng.genQ.2).gen.2,
                [Event.attemptIgnite src t, Event.ignite t])
            else (s, (rng.genQ.2).gen.2, [Event.attemptIgnite src t])
          else (s, rng.genQ.2, [Event.attemptIgnite src t])
        else (s, rng, [Event.attemptIgnite src t])
      else (s, rng, [Event.attemptIgnite src t])
    else (s, rng, [])

/-- The 3×3 neighborhood double loop of `prepareNewTurn`'s fire spread
(the burning tile itself is filtered out by its nonzero fire counter). -/
def fireSpread (env : Env) (s : SavedBattleGame) (rng : RNG) (p : Position) :
    SavedBattleGame × RNG × List Event :=
  ([p.x - 1, p.x, p.x + 1]).foldl
    (fun acc x =>
      ([p.y - 1, p.y, p.y + 1]).foldl
        (fun acc2 y =>
          let r := igniteAttempt env acc2.1 acc2.2.1 p ⟨x, y, p.z⟩
          (r.1, r.2.1, acc2.2.2 ++ r.2.2))
        acc)
    (s, rng, [])

/-- The per-burning-tile body of `prepareNewTurn`: the 8 neighbor-ignition
attempts run first, then the tile's own fire/burn-down advance. -/
def fireStep (env : Env) (s : SavedBattleGame) (rng : RNG) (p : Position) :
    SavedBattleGame × RNG × List Event :=
  let r := fireSpread env s rng p
  (r.1.updTile p Tile.prepareNewTurnTile, r.2.1,
    r.2.2 ++ [Event.advanceTile p])

/-- `TerrainModifier::prepareNewTurn`: snapshot the burning and smoking
tiles, advance every smoking tile, run `fireStep` for every burning tile,
and recompute the static lighting layer when any tile was burning. -/
def prepareNewTurn (env : Env) (s : SavedBattleGame) (rng : RNG) :
    SavedBattleGame × RNG × List Event :=
  let tilesOnFire := s.allPositions.filter fun p => (s.tiles p).fire > 0
  let tilesOnSmoke := s.allPositions.filter fun p => (s.tiles p).smoke > 0
  let sm := tilesOnSmoke.foldl
    (fun acc p =>
      (acc.1.updTile p Tile.prepareNewTurnTile, acc.2 ++ [Event.advanceTile p]))
    (s, ([] : List Event))
  let fr := tilesOnFire.foldl
    (fun acc p =>
      let r := fireStep env acc.1 acc.2.1 p
      (r.1, r.2.1, acc.2.2 ++ r.2.2))
    (sm.1, rng, sm.2)
  let s3 := if tilesOnFire.length > 0 then calculateTerrainLighting fr.1
    else fr.1
  (s3, fr.2.1, fr.2.2)

/-- Modelled from the spec: `Tile::openDoor` per the door state machine —
no door (−1), a normal door opened (0), a UFO door starting to open (1), a
UFO door still opening (3). -/
def Tile.openDoor (t : Tile) (part : Nat) : Int × Tile :=
  match t.getMapData part with
  | none => (-1, t)
  | some m =>
    if m.isDoor then (0, t)
    else if m.isUfoDoor then
      if t.ufoDoorOpen part then (3, t)
      else (1, { t with ufoDoorOpen := fun q => if q = part then true
        else t.ufoDoorOpen q })
    else (-1, t)

/-- Open the door of the wall `part` on the tile at `p`. -/
def openDoorAt (s : SavedBattleGame) (p : Position) (part : Nat) :
    Int × SavedBattleGame :=
  let r := (s.tiles p).openDoor part
  (r.1, { s with tiles := fun q => if q = p then r.2 else s.tiles q })

/-- The guarded adjacent-door nudge `if (tile) tile->openDoor(part)`. -/
def condOpenDoor (s : SavedBattleGame) (t : Option Position) (part : Nat) :
    SavedBattleGame :=
  match t with
  | some p => (openDoorAt s p part).2
  | none => s

/-- `TerrainModifier::unitOpensDoor`: open the wall the unit faces (or the
neighbor's matching wall for east/south facings), nudge the two adjacent
segments of a mechanical door, and on success recompute FOV at the `tile`
variable's position.  `none` models the source dereferencing a null tile
pointer: the local `tile` is reassigned to the second adjacent lookup while
nudging, so a mechanical door opened by a unit at the map edge leaves
`tile` null and `tile->getPosition()` then dereferences it. -/
def unitOpensDoor (env : Env) (s : SavedBattleGame) (uidx : Nat) :
    Option (Int × SavedBattleGame) :=
  let u := s.unitAt uidx
  let t0 := s.getTile u.pos
  let step : Option (Int × Option Position × SavedBattleGame) :=
    if u.direction.val = 0 then
      match t0 with
      | none => none
      | some p =>
        let r := openDoorAt s p O_NORTHWALL
        if r.1 = 1 then
          let t1 := r.2.getTile (u.pos + ⟨1, 0, 0⟩)
          let s2 := condOpenDoor r.2 t1 O_NORTHWALL
          let t2 := s2.getTile (u.pos + ⟨-1, 0, 0⟩)
          let s3 := condOpenDoor s2 t2 O_NORTHWALL
          some (r.1, t2, s3)
        else some (r.1, some p, r.2)
    else if u.direction.val = 2 then
      match t0 with
      | none => none
      | some p =>
        let t1 := s.getTile (p + ⟨1, 0, 0⟩)
        let r : Int × SavedBattleGame :=
          match t1 with
          | some q => openDoorAt s q O_WESTWALL
          | none => (-1, s)
        if r.1 = 1 then
          let ta := r.2.getTile (u.pos + ⟨1, -1, 0⟩)
          let s2 := condOpenDoor r.2 ta O_WESTWALL
          let tb := s2.getTile (u.pos + ⟨1, 1, 0⟩)
          let s3 := condOpenDoor s2 tb O_WESTWALL
          some (r.1, tb, s3)
        else some (r.1, t1, r.2)
    else if u.direction.val = 4 then
      match t0 with
      | none => none
      | some p =>
        let t1 := s.getTile (p + ⟨0, -1, 0⟩)
        let r : Int × SavedBattleGame :=
          match t1 with
          | some q => openDoorAt s q O_NORTHWALL
          | none => (-1, s)
        if r.1 = 1 then
          let ta := r.2.getTile (u.pos + ⟨1, -1, 0⟩)
          let s2 := condOpenDoor r.2 ta O_NORTHWALL
          let tb := s2.getTile (u.pos + ⟨-1, -1, 0⟩)
          let s3 := condOpenDoor s2 tb O_NORTHWALL
          some (r.1, tb, s3)
        else some (r.1, t1, r.2)
    else if u.direction.val = 6 then
      match t0 with
      | none => none
      | some p =>
        let r := openDoorAt s p O_WESTWALL
        if r.1 = 1 then
          let ta := r.2.getTile (u.pos + ⟨0, -1, 0⟩)
          let s2 := condOpenDoor r.2 ta O_WESTWALL
          let tb := s2.getTile (u.pos + ⟨0, 1, 0⟩)
          let s3 := condOpenDoor s2 tb O_WESTWALL
          some (r.1, tb, s3)
        else some (r.1, some p, r.2)
    else some (-1, t0, s)
  match step with
  | none => none
  | some (door, tileVar, s1) =>
    if door = 0 ∨ door = 1 then
      match tileVar with
      | none => none
      | some _ => some (door, calculateFOVAll env s1)
    else some (door, s1)

/-- The gravity descent of `TerrainModifier::spawnItem`: drop while the tile
has no floor and the level is above 0; every iteration dereferences the tile
lookup, so an out-of-bounds start position is a null dereference (`none`). -/
def spawnDescend (s : SavedBattleGame) (p : Position) : Option Position :=
  match s.getTile p with
  | none => none
  | some q =>
    if h : (s.tiles q).floor.isNone ∧ 0 < p.z then
      spawnDescend s ⟨p.x, p.y, p.z - 1⟩
    else some q
termination_by p.z.toNat
decreasing_by
  omega

/-- `TerrainModifier::spawnItem`: add an item to the tile the gravity descent
lands on. -/
def spawnItem (s : SavedBattleGame) (position : Position) :
    Option SavedBattleGame :=
  match spawnDescend s position with
  | none => none
  | some q => some (s.updTile q (fun t => { t with items := t.items + 1 }))

/-- Bounds test with the dimensions made explicit (`tileExists` with the
state's dimensions abstracted out, for analyzing dimension-preserving
passes). -/
def inBounds (w le h : Nat) (p : Position) : Bool :=
  0 ≤ p.x && p.x < (w : Int) && 0 ≤ p.y && p.y < (le : Int)
    && 0 ≤ p.z && p.z < (h : Int)

/-- The light contribution one `quadAdd` block deposits at the observation
point `q`: one summand per quadrant mirror, guarded by the bounds test and
the mirror hitting `q`. -/
def quadDelta (w le h : Nat) (c : Position) (pw x y z : Int) (q : Position) :
    Int :=
  (if inBounds w le h ⟨c.x + x, c.y + y, z⟩ ∧ q = ⟨c.x + x, c.y + y, z⟩ then
      pw - (roundSqrt (x * x + y * y).toNat : Int) else 0)
    + (if inBounds w le h ⟨c.x - x, c.y - y, z⟩ ∧ q = ⟨c.x - x, c.y - y, z⟩ then
      pw - (roundSqrt (x * x + y * y).toNat : Int) else 0)
    + (if inBounds w le h ⟨c.x - x, c.y + y, z⟩ ∧ q = ⟨c.x - x, c.y + y, z⟩ then
      pw - (roundSqrt (x * x + y * y).toNat : Int) else 0)
    + (if inBounds w le h ⟨c.x + x, c.y - y, z⟩ ∧ q = ⟨c.x + x, c.y - y, z⟩ then
      pw - (roundSqrt (x * x + y * y).toNat : Int) else 0)

/-! ### Concrete fixtures used by witnesses and counterexamples -/

/-- A small battle state with the given dimensions, tile map and units. -/
def mkState (w le h : Nat) (tiles : Position → Tile)
    (units : List BattleUnit) : SavedBattleGame where
  width := w
  length := le
  height := h
  tiles := tiles
  units := units
  side := .player
  globalShade := 0
  voxelData := fun _ => 0

/-- A plain wall/object material with uniform per-channel blockage `b`. -/
def plainWall (b : Int) : MapData where
  blockVision := b
  blockHE := b
  blockSmoke := b
  blockFire := b
  blockStun := b
  isUfoDoor := false
  isDoor := false
  lightSource := 0
  terrainLevel := 0
  flammable := 0
  armor := 10
  loftID := fun _ => 0

/-- Fixture for C5: a 1×2×2 map whose tile (0,0,0) has a north wall of
blockage 100. -/
def stateC5 : SavedBattleGame :=
  mkState 1 2 2
    (fun p => if p = ⟨0, 0, 0⟩ then { emptyTile with northwall := some (plainWall 100) }
      else emptyTile)
    []

/-- Fixture for C4 and C1: a 1×1×1 map with a single empty tile. -/
def stateC4 : SavedBattleGame := mkState 1 1 1 (fun _ => emptyTile) []

/-- Fixture for C3: a 1×1×2 map whose upper tile has a floor, so the vertical
ray from the top of the map to the ground tile is blocked. -/
def stateC3 : SavedBattleGame :=
  mkState 1 1 2
    (fun p => if p = ⟨0, 0, 1⟩ then { emptyTile with floor := some (plainWall 0) }
      else emptyTile)
    []

/-- A trigonometry table for concrete runs: exact at angle 0 (`cos 0 = 1`,
`sin 0 = 0`, the values every IEEE libm returns for `cos(0.0)`/`sin(0.0)`);
other entries share the same pair.  The concrete FOV facts proved below are
monotone in the visited-tile set and are forced by the angle-0 ray alone, so
they hold for every table that is exact at 0 — in particular the double
precision one. -/
def envC : Env where
  cosDeg := fun _ => ⟨1, 1⟩
  sinDeg := fun _ => ⟨0, 1⟩
  junkX := 0
  junkY := 0

/-- Fixture for C2 and C10: a 2×1×1 map, a player unit at (0,0,0) facing
octant 1 (whose horizontal sweep starts at angle 0), and an empty tile at
(1,0,0). -/
def stateFOV : SavedBattleGame :=
  mkState 2 1 1
    (fun p => if p = ⟨0, 0, 0⟩ then { emptyTile with unit := some 0 }
      else emptyTile)
    [{ pos := ⟨0, 0, 0⟩, direction := 1, faction := .player, isOut := false,
       kneeled := false, standHeight := 16, kneelHeight := 8, loftemps := 0,
       visibleUnits := [], health := 10 }]

/-- Fixture for C7: a 2×1×1 map, tile (0,0,0) burning, its east neighbor
(1,0,0) open (no walls, zero blockage) but fireproof (flammability 255). -/
def stateC7 : SavedBattleGame :=
  mkState 2 1 1
    (fun p => if p = ⟨0, 0, 0⟩ then { emptyTile with fire := 1 }
      else { emptyTile with flammability := 255 })
    []

/-- Fixture for C7: random streams whose folded-normal draw is 300 and whose
uniform draw is 0, so both of the claimed random gates would pass. -/
def rngC7 : RNG where
  intSeq := fun _ => 0
  ratSeq := fun _ => ⟨300, 1⟩
  intIdx := 0
  ratIdx := 0

/-- A UFO-door wall material. -/
def ufoDoorWall : MapData := { plainWall 0 with isUfoDoor := true }

/-- Fixture for C9: a 1×1×1 map whose only tile carries a UFO door as its
north wall, occupied by a unit facing north (direction 0).  The unit stands
at the west edge, so the west adjacent-segment lookup is out of bounds. -/
def stateC9 : SavedBattleGame :=
  mkState 1 1 1
    (fun p => if p = ⟨0, 0, 0⟩ then
        { emptyTile with northwall := some ufoDoorWall, unit := some 0 }
      else emptyTile)
    [{ pos := ⟨0, 0, 0⟩, direction := 0, faction := .player, isOut := false,
       kneeled := false, standHeight := 16, kneelHeight := 8, loftemps := 0,
       visibleUnits := [], health := 10 }]

-- THEOREMS

/-! ### Basic lemmas -/

@[simp]
theorem Position.sub_x (a b : Position) : (a - b).x = a.x - b.x := rfl

@[simp]
theorem Position.sub_y (a b : Position) : (a - b).y = a.y - b.y := rfl

@[simp]
theorem Position.sub_z (a b : Position) : (a - b).z = a.z - b.z := rfl

@[simp]
theorem updTile_width (s : SavedBattleGame) (p : Position) (f : Tile → Tile) :
    (s.updTile p f).width = s.width := rfl

@[simp]
theorem updTile_length (s : SavedBattleGame) (p : Position) (f : Tile → Tile) :
    (s.updTile p f).length = s.length := rfl

@[simp]
theorem updTile_height (s : SavedBattleGame) (p : Position) (f : Tile → Tile) :
    (s.updTile p f).height = s.height := rfl

theorem updTile_tiles (s : SavedBattleGame) (p q : Position) (f : Tile → Tile) :
    (s.updTile p f).tiles q = if q = p then f (s.tiles q) else s.tiles q := rfl

@[simp]
theorem updTile_tileExists (s : SavedBattleGame) (p q : Position)
    (f : Tile → Tile) : (s.updTile p f).tileExists q = s.tileExists q := rfl

@[simp]
theorem updTile_getTile (s : SavedBattleGame) (p q : Position)
    (f : Tile → Tile) : (s.updTile p f).getTile q = s.getTile q := rfl

@[simp]
theorem updUnit_tiles (s : SavedBattleGame) (i : Nat) (f : BattleUnit → BattleUnit)
    (q : Position) : (s.updUnit i f).tiles q = s.tiles q := rfl

@[simp]
theorem updUnit_getTile (s : SavedBattleGame) (i : Nat)
    (f : BattleUnit → BattleUnit) (q : Position) :
    (s.updUnit i f).getTile q = s.getTile q := rfl

/-! ### The direction classifier -/

theorem vtd_fold_stable (jx jy : Int) (v : Position) (l : List Nat) (acc : Int)
    (h : acc ≠ -1) : l.foldl (vtdStep jx jy v) acc = acc := by
  induction l with
  | nil => rfl
  | cons a l ih => simp [List.foldl_cons, vtdStep, h, ih]

theorem vtd_fold_cons_match (jx jy : Int) (v : Position) (i : Nat)
    (l : List Nat)
    (hm : (dirEntry jx jy i).1 = v.x ∧ (dirEntry jx jy i).2 = v.y) :
    (i :: l).foldl (vtdStep jx jy v) (-1) = (i : Int) := by
  have hs : vtdStep jx jy v (-1) i = (i : Int) := by
    simp [vtdStep, hm]
  rw [List.foldl_cons, hs, vtd_fold_stable]
  have := Int.natCast_nonneg i
  omega

theorem vtd_fold_cons_nomatch (jx jy : Int) (v : Position) (i : Nat)
    (l : List Nat)
    (hm : ¬((dirEntry jx jy i).1 = v.x ∧ (dirEntry jx jy i).2 = v.y)) :
    (i :: l).foldl (vtdStep jx jy v) (-1) = l.foldl (vtdStep jx jy v) (-1) := by
  have hs : vtdStep jx jy v (-1) i = -1 := by
    simp [vtdStep, hm]
  rw [List.foldl_cons, hs]

/-- Closed form of the classification loop: the first matching table entry's
index, the out-of-bounds pair giving 8, or −1. -/
theorem vtd_eq (jx jy : Int) (v : Position) : vectorToDirection jx jy v =
    if (0 : Int) = v.x ∧ (1 : Int) = v.y then 0
    else if (1 : Int) = v.x ∧ (1 : Int) = v.y then 1
    else if (1 : Int) = v.x ∧ (0 : Int) = v.y then 2
    else if (1 : Int) = v.x ∧ (-1 : Int) = v.y then 3
    else if (0 : Int) = v.x ∧ (-1 : Int) = v.y then 4
    else if (-1 : Int) = v.x ∧ (-1 : Int) = v.y then 5
    else if (-1 : Int) = v.x ∧ (0 : Int) = v.y then 6
    else if (-1 : Int) = v.x ∧ (1 : Int) = v.y then 7
    else if jx = v.x ∧ jy = v.y then 8
    else -1 := by
  have h9 : List.range 9 = [0, 1, 2, 3, 4, 5, 6, 7, 8] := rfl
  rw [vectorToDirection, h9]
  by_cases c0 : (0 : Int) = v.x ∧ (1 : Int) = v.y
  · rw [vtd_fold_cons_match _ _ _ _ _ (by simpa [dirEntry] using c0), if_pos c0]
    norm_num
  rw [vtd_fold_cons_nomatch _ _ _ _ _ (by simpa [dirEntry] using c0), if_neg c0]
  by_cases c1 : (1 : Int) = v.x ∧ (1 : Int) = v.y
  · rw [vtd_fold_cons_match _ _ _ _ _ (by simpa [dirEntry] using c1), if_pos c1]
    norm_num
  rw [vtd_fold_cons_nomatch _ _ _ _ _ (by simpa [dirEntry] using c1), if_neg c1]
  by_cases c2 : (1 : Int) = v.x ∧ (0 : Int) = v.y
  · rw [vtd_fold_cons_match _ _ _ _ _ (by simpa [dirEntry] using c2), if_pos c2]
    norm_num
  rw [vtd_fold_cons_nomatch _ _ _ _ _ (by simpa [dirEntry] using c2), if_neg c2]
  by_cases c3 : (1 : Int) = v.x ∧ (-1 : Int) = v.y
  · rw [vtd_fold_cons_match _ _ _ _ _ (by simpa [dirEntry] using c3), if_pos c3]
    norm_num
  rw [vtd_fold_cons_nomatch _ _ _ _ _ (by simpa [dirEntry] using c3), if_neg c3]
  by_cases c4 : (0 : Int) = v.x ∧ (-1 : Int) = v.y
  · rw [vtd_fold_cons_match _ _ _ _ _ (by simpa [dirEntry] using c4), if_pos c4]
    norm_num
  rw [vtd_fold_cons_nomatch _ _ _ _ _ (by simpa [dirEntry] using c4), if_neg c4]
  by_cases c5 : (-1 : Int) = v.x ∧ (-1 : Int) = v.y
  · rw [vtd_fold_cons_match _ _ _ _ _ (by simpa [dirEntry] using c5), if_pos c5]
    norm_num
  rw [vtd_fold_cons_nomatch _ _ _ _ _ (by simpa [dirEntry] using c5), if_neg c5]
  by_cases c6 : (-1 : Int) = v.x ∧ (0 : Int) = v.y
  · rw [vtd_fold_cons_match _ _ _ _ _ (by simpa [dirEntry] using c6), if_pos c6]
    norm_num
  rw [vtd_fold_cons_nomatch _ _ _ _ _ (by simpa [dirEntry] using c6), if_neg c6]
  by_cases c7 : (-1 : Int) = v.x ∧ (1 : Int) = v.y
  · rw [vtd_fold_cons_match _ _ _ _ _ (by simpa [dirEntry] using c7), if_pos c7]
    norm_num
  rw [vtd_fold_cons_nomatch _ _ _ _ _ (by simpa [dirEntry] using c7), if_neg c7]
  by_cases c8 : jx = v.x ∧ jy = v.y
  · rw [vtd_fold_cons_match _ _ _ _ _ (by simpa [dirEntry] using c8), if_pos c8]
    norm_num
  rw [vtd_fold_cons_nomatch _ _ _ _ _ (by simpa [dirEntry] using c8), if_neg c8]
  rfl

/-! ### C5: horizontal blockage by octant -/

/-- C5 (amended): `horizontalBlockage` returns 0 for every pair whose
`(Δx, Δy)` is not one of the 8 unit octant vectors — the z components play no
part in the classification — and for the 4 cardinal octant vectors it
returns exactly the blockage of the single crossed wall: the start tile's
north wall going north, the end tile's west wall going east, the end tile's
north wall going south, the start tile's west wall going west. -/
theorem claim_C5_horizontalBlockage_cases (s : SavedBattleGame)
    (jx jy : Int) (p q : Position) (type : ItemDamageType) :
    ((q.x - p.x, q.y - p.y) ∉ octantVectors →
      horizontalBlockage s jx jy (some p) (some q) type = 0)
    ∧ (q.x - p.x = 0 ∧ q.y - p.y = 1 →
      horizontalBlockage s jx jy (some p) (some q) type
        = blockage s (some p) O_NORTHWALL type)
    ∧ (q.x - p.x = 1 ∧ q.y - p.y = 0 →
      horizontalBlockage s jx jy (some p) (some q) type
        = blockage s (some q) O_WESTWALL type)
    ∧ (q.x - p.x = 0 ∧ q.y - p.y = -1 →
      horizontalBlockage s jx jy (some p) (some q) type
        = blockage s (some q) O_NORTHWALL type)
    ∧ (q.x - p.x = -1 ∧ q.y - p.y = 0 →
      horizontalBlockage s jx jy (some p) (some q) type
        = blockage s (some p) O_WESTWALL type) := by
  have hd := vtd_eq jx jy (q - p)
  simp only [Position.sub_x, Position.sub_y] at hd
  refine ⟨?_, ?_, ?_, ?_, ?_⟩
  · intro hm
    have hnot : ∀ a b : Int, (a, b) ∈ octantVectors →
        ¬(q.x - p.x = a ∧ q.y - p.y = b) := by
      intro a b hab ⟨h1, h2⟩
      exact hm (h1 ▸ h2 ▸ hab)
    have d8 : vectorToDirection jx jy (q - p) = 8
        ∨ vectorToDirection jx jy (q - p) = -1 := by
      rw [hd]
      split_ifs with h h h h h h h h h
      · exact absurd ⟨h.1.symm, h.2.symm⟩ (hnot 0 1 (by decide))
      · exact absurd ⟨h.1.symm, h.2.symm⟩ (hnot 1 1 (by decide))
      · exact absurd ⟨h.1.symm, h.2.symm⟩ (hnot 1 0 (by decide))
      · exact absurd ⟨h.1.symm, h.2.symm⟩ (hnot 1 (-1) (by decide))
      · exact absurd ⟨h.1.symm, h.2.symm⟩ (hnot 0 (-1) (by decide))
      · exact absurd ⟨h.1.symm, h.2.symm⟩ (hnot (-1) (-1) (by decide))
      · exact absurd ⟨h.1.symm, h.2.symm⟩ (hnot (-1) 0 (by decide))
      · exact absurd ⟨h.1.symm, h.2.symm⟩ (hnot (-1) 1 (by decide))
      · exact Or.inl rfl
      · exact Or.inr rfl
    rcases d8 with h | h <;> simp [horizontalBlockage, h]
  · intro ⟨h1, h2⟩
    have h0 : vectorToDirection jx jy (q - p) = 0 := by
      rw [hd, if_pos ⟨h1.symm, h2.symm⟩]
    simp [horizontalBlockage, h0]
  · intro ⟨h1, h2⟩
    have h0 : vectorToDirection jx jy (q - p) = 2 := by
      rw [hd]
      rw [if_neg (by omega), if_neg (by omega), if_pos ⟨h1.symm, h2.symm⟩]
    simp [horizontalBlockage, h0]
  · intro ⟨h1, h2⟩
    have h0 : vectorToDirection jx jy (q - p) = 4 := by
      rw [hd]
      rw [if_neg (by omega), if_neg (by omega), if_neg (by omega),
        if_neg (by omega), if_pos ⟨h1.symm, h2.symm⟩]
    simp [horizontalBlockage, h0]
  · intro ⟨h1, h2⟩
    have h0 : vectorToDirection jx jy (q - p) = 6 := by
      rw [hd]
      rw [if_neg (by omega), if_neg (by omega), if_neg (by omega),
        if_neg (by omega), if_neg (by omega), if_neg (by omega),
        if_pos ⟨h1.symm, h2.symm⟩]
    simp [horizontalBlockage, h0]

/-- Witness for C5: concrete instances of all five cases on `stateC5`. -/
theorem claim_C5_witness :
    horizontalBlockage stateC5 0 0 (some ⟨0, 0, 0⟩) (some ⟨0, 5, 0⟩) .DT_NONE = 0
    ∧ horizontalBlockage stateC5 0 0 (some ⟨0, 0, 0⟩) (some ⟨0, 1, 0⟩) .DT_NONE
      = blockage stateC5 (some ⟨0, 0, 0⟩) O_NORTHWALL .DT_NONE
    ∧ horizontalBlockage stateC5 0 0 (some ⟨0, 0, 0⟩) (some ⟨1, 0, 0⟩) .DT_NONE
      = blockage stateC5 (some ⟨1, 0, 0⟩) O_WESTWALL .DT_NONE
    ∧ horizontalBlockage stateC5 0 0 (some ⟨0, 1, 0⟩) (some ⟨0, 0, 0⟩) .DT_NONE
      = blockage stateC5 (some ⟨0, 0, 0⟩) O_NORTHWALL .DT_NONE
    ∧ horizontalBlockage stateC5 0 0 (some ⟨1, 0, 0⟩) (some ⟨0, 0, 0⟩) .DT_NONE
      = blockage stateC5 (some ⟨1, 0, 0⟩) O_WESTWALL .DT_NONE := by
  refine ⟨?_, ?_, ?_, ?_, ?_⟩
  · exact (claim_C5_horizontalBlockage_cases stateC5 0 0 ⟨0, 0, 0⟩ ⟨0, 5, 0⟩
      .DT_NONE).1 (by decide)
  · exact (claim_C5_horizontalBlockage_cases stateC5 0 0 ⟨0, 0, 0⟩ ⟨0, 1, 0⟩
      .DT_NONE).2.1 (by decide)
  · exact (claim_C5_horizontalBlockage_cases stateC5 0 0 ⟨0, 0, 0⟩ ⟨1, 0, 0⟩
      .DT_NONE).2.2.1 (by decide)
  · exact (claim_C5_horizontalBlockage_cases stateC5 0 0 ⟨0, 1, 0⟩ ⟨0, 0, 0⟩
      .DT_NONE).2.2.2.1 (by decide)
  · exact (claim_C5_horizontalBlockage_cases stateC5 0 0 ⟨1, 0, 0⟩ ⟨0, 0, 0⟩
      .DT_NONE).2.2.2.2 (by decide)

/-- Counterexample for C5 as stated: the tiles (0,0,0) and (0,1,1) differ in
z, so their difference is not a unit octant vector at the same z-level and
the claim demands 0; the code classifies the `(Δx, Δy) = (0, 1)` part alone
as north and returns the start tile's north wall blockage 100.  The junk
arguments are irrelevant: entry 0 matches before the out-of-bounds read. -/
theorem claim_C5_counterexample :
    horizontalBlockage stateC5 0 0 (some ⟨0, 0, 0⟩) (some ⟨0, 1, 1⟩) .DT_NONE
      = 100 ∧ (100 : Int) ≠ 0 := by
  exact ⟨by decide, by decide⟩

/-! ### C8: the classification loop's out-of-bounds read -/

/-- C8: the classification loop of `vectorToDirection` performs 9 table
reads on the zero vector (and any other non-matching vector), one past the
end of the two 8-entry tables, while each of the 8 octant vectors returns
after reading at most 8 entries. -/
theorem claim_C8_oob_read :
    vectorToDirectionReads ⟨0, 0, 0⟩ = 9
    ∧ dirTableX.length = 8 ∧ dirTableY.length = 8
    ∧ ∀ i : Fin 8,
        vectorToDirectionReads ⟨dirTableX.getD i.val 0, dirTableY.getD i.val 0, 0⟩
          = i.val + 1 := by
  refine ⟨by decide, by decide, by decide, ?_⟩
  decide

/-! ### C4: voxelCheck bounds classification -/

/-- C4 (amended): `voxelCheck` returns `OutOfMap` (5) exactly when the tile
obtained by component-wise division truncating toward zero (C `/`) by
(16,16,24) does not exist; when that tile exists, the result is a unit hit,
a part index 0–3 or −1, never 5.  For non-negative voxel components the
truncating division coincides with floor division. -/
theorem claim_C4_voxelCheck_oob (s : SavedBattleGame) (voxel : Position)
    (excl : Option Nat) :
    voxelCheck s voxel excl = 5 ↔
      s.tileExists ⟨voxel.x.tdiv 16, voxel.y.tdiv 16, voxel.z.tdiv 24⟩
        = false := by
  by_cases h : s.tileExists ⟨voxel.x.tdiv 16, voxel.y.tdiv 16, voxel.z.tdiv 24⟩
  · have hg : s.getTile ⟨voxel.x.tdiv 16, voxel.y.tdiv 16, voxel.z.tdiv 24⟩
        = some ⟨voxel.x.tdiv 16, voxel.y.tdiv 16, voxel.z.tdiv 24⟩ := by
      simp [SavedBattleGame.getTile, h]
    constructor
    · intro h5
      exfalso
      rw [voxelCheck, hg] at h5
      dsimp only [] at h5
      split_ifs at h5
      · norm_num at h5
      · split at h5
        · rename_i i heq
          have hi : i < 4 := List.mem_range.mp (List.mem_of_find?_eq_some heq)
          omega
        · norm_num at h5
    · intro hfalse
      rw [h] at hfalse
      simp at hfalse
  · have hg : s.getTile ⟨voxel.x.tdiv 16, voxel.y.tdiv 16, voxel.z.tdiv 24⟩
        = none := by
      simp [SavedBattleGame.getTile, h]
    rw [voxelCheck, hg]
    simp [h]

/-- Counterexample for C4 as stated: the voxel (−5,0,0) floor-divides to the
non-existent tile (−1,0,0), so the claim demands `OutOfMap`; the code's
truncating division maps it to the existing tile (0,0,0) and returns −1. -/
theorem claim_C4_counterexample :
    voxelCheck stateC4 ⟨-5, 0, 0⟩ none = -1
    ∧ ((-1 : Int) ≠ 5)
    ∧ Int.fdiv (-5) 16 = -1
    ∧ stateC4.tileExists ⟨Int.fdiv (-5) 16, 0, 0⟩ = false
    ∧ Int.tdiv (-5) 16 = 0
    ∧ stateC4.tileExists ⟨0, 0, 0⟩ = true := by
  refine ⟨by decide, by decide, by decide, by decide, by decide, by decide⟩

/-! ### C3: sun shading at full daylight -/

/-- C3 (amended): at `globalShade = 0`, `calculateSunShading` adds 15 onto a
tile's ambient layer when the vertical ray from the top of the map down to
the tile is unblocked and 13 when it is blocked — the `globalShade <= 5`
branch applies at shade 0, so occlusion is not ignored. -/
theorem claim_C3_sunShading (s : SavedBattleGame) (p : Position)
    (h : s.globalShade = 0) :
    ((calculateSunShadingTile s p).tiles p).light 0
      = (s.tiles p).light 0
        + (if verticalBlockage s (s.getTile ⟨p.x, p.y, (s.height : Int) - 1⟩)
              (some p) .DT_NONE ≠ 0 then 13 else 15) := by
  rw [calculateSunShadingTile, h]
  norm_num
  rw [updTile_tiles, if_pos rfl]
  split_ifs with hb
  · simp [Tile.addLight]
  · simp [Tile.addLight]

/-- Witness for C3: on the blocked fixture, the amended theorem yields the
13-case. -/
theorem claim_C3_witness :
    stateC3.globalShade = 0
    ∧ ((calculateSunShadingTile stateC3 ⟨0, 0, 0⟩).tiles ⟨0, 0, 0⟩).light 0
      = (stateC3.tiles ⟨0, 0, 0⟩).light 0
        + (if verticalBlockage stateC3
              (stateC3.getTile ⟨0, 0, (stateC3.height : Int) - 1⟩)
              (some ⟨0, 0, 0⟩) .DT_NONE ≠ 0 then 13 else 15) :=
  ⟨rfl, claim_C3_sunShading stateC3 ⟨0, 0, 0⟩ rfl⟩

/-- Counterexample for C3 as stated: with `globalShade = 0` the tile under a
floor receives 13, not 15 — occlusion is applied at full daylight. -/
theorem claim_C3_counterexample :
    ((calculateSunShadingTile stateC3 ⟨0, 0, 0⟩).tiles ⟨0, 0, 0⟩).light 0 = 13
    ∧ (13 : Int) ≠ 15 := by
  exact ⟨by decide, by decide⟩

/-! ### C1: addLight radial falloff and quadrant multiplicity -/

theorem Position.eq_mk_iff (q : Position) (a b c : Int) :
    q = ⟨a, b, c⟩ ↔ q.x = a ∧ q.y = b ∧ q.z = c := by
  cases q
  simp [Position.mk.injEq]

theorem inBounds_iff (w le h : Nat) (p : Position) :
    inBounds w le h p = true ↔
      0 ≤ p.x ∧ p.x < (w : Int) ∧ 0 ≤ p.y ∧ p.y < (le : Int)
        ∧ 0 ≤ p.z ∧ p.z < (h : Int) := by
  simp [inBounds, and_assoc]

theorem tileExists_eq_inBounds (s : SavedBattleGame) (p : Position) :
    s.tileExists p = inBounds s.width s.length s.height p := rfl

@[simp]
theorem condAddLight_width (s : SavedBattleGame) (p : Position) (v : Int)
    (layer : Nat) : (condAddLight s p v layer).width = s.width := by
  cases h : s.getTile p <;> simp [condAddLight, h]

@[simp]
theorem condAddLight_length (s : SavedBattleGame) (p : Position) (v : Int)
    (layer : Nat) : (condAddLight s p v layer).length = s.length := by
  cases h : s.getTile p <;> simp [condAddLight, h]

@[simp]
theorem condAddLight_height (s : SavedBattleGame) (p : Position) (v : Int)
    (layer : Nat) : (condAddLight s p v layer).height = s.height := by
  cases h : s.getTile p <;> simp [condAddLight, h]

@[simp]
theorem condAddLight_tileExists (s : SavedBattleGame) (p : Position) (v : Int)
    (layer : Nat) (r : Position) :
    (condAddLight s p v layer).tileExists r = s.tileExists r := by
  cases h : s.getTile p <;> simp [condAddLight, h]

theorem condAddLight_apply (s : SavedBattleGame) (p : Position) (v : Int)
    (layer : Nat) (q : Position) :
    ((condAddLight s p v layer).tiles q).light layer
      = (s.tiles q).light layer
        + (if s.tileExists p ∧ q = p then v else 0) := by
  by_cases hex : s.tileExists p
  · have hg : s.getTile p = some p := by simp [SavedBattleGame.getTile, hex]
    by_cases hq : q = p
    · subst hq
      simp [condAddLight, hg, updTile_tiles, Tile.addLight, hex]
    · simp [condAddLight, hg, updTile_tiles, hq, hex]
  · have hg : s.getTile p = none := by simp [SavedBattleGame.getTile, hex]
    simp [condAddLight, hg, hex]

@[simp]
theorem quadAdd_width (s : SavedBattleGame) (c : Position) (pw x y z : Int)
    (layer : Nat) : (quadAdd s c pw x y z layer).width = s.width := by
  simp [quadAdd]

@[simp]
theorem quadAdd_length (s : SavedBattleGame) (c : Position) (pw x y z : Int)
    (layer : Nat) : (quadAdd s c pw x y z layer).length = s.length := by
  simp [quadAdd]

@[simp]
theorem quadAdd_height (s : SavedBattleGame) (c : Position) (pw x y z : Int)
    (layer : Nat) : (quadAdd s c pw x y z layer).height = s.height := by
  simp [quadAdd]

theorem quadAdd_apply (s : SavedBattleGame) (c : Position) (pw x y z : Int)
    (layer : Nat) (q : Position) :
    ((quadAdd s c pw x y z layer).tiles q).light layer
      = (s.tiles q).light layer
        + quadDelta s.width s.length s.height c pw x y z q := by
  unfold quadAdd quadDelta
  rw [condAddLight_apply]
  rw [condAddLight_apply]
  rw [condAddLight_apply]
  rw [condAddLight_apply]
  simp only [condAddLight_tileExists, tileExists_eq_inBounds,
    condAddLight_width, condAddLight_length, condAddLight_height]
  ring

theorem foldl_width {α : Type} (f : SavedBattleGame → α → SavedBattleGame)
    (hw : ∀ s a, (f s a).width = s.width) (l : List α) :
    ∀ s, (l.foldl f s).width = s.width := by
  induction l with
  | nil => intro s; rfl
  | cons a t ih => intro s; rw [List.foldl_cons, ih, hw]

theorem foldl_length {α : Type} (f : SavedBattleGame → α → SavedBattleGame)
    (hw : ∀ s a, (f s a).length = s.length) (l : List α) :
    ∀ s, (l.foldl f s).length = s.length := by
  induction l with
  | nil => intro s; rfl
  | cons a t ih => intro s; rw [List.foldl_cons, ih, hw]

theorem foldl_height {α : Type} (f : SavedBattleGame → α → SavedBattleGame)
    (hw : ∀ s a, (f s a).height = s.height) (l : List α) :
    ∀ s, (l.foldl f s).height = s.height := by
  induction l with
  | nil => intro s; rfl
  | cons a t ih => intro s; rw [List.foldl_cons, ih, hw]

/-- Folding a dimension-preserving pass whose per-element light delta at `q`
is a state-independent function of the element adds the sum of deltas. -/
theorem foldl_light_delta {α : Type} (w le h : Nat) (q : Position)
    (layer : Nat) (f : SavedBattleGame → α → SavedBattleGame) (g : α → Int)
    (hdw : ∀ s a, (f s a).width = s.width)
    (hdl : ∀ s a, (f s a).length = s.length)
    (hdh : ∀ s a, (f s a).height = s.height)
    (happ : ∀ s a, s.width = w → s.length = le → s.height = h →
      ((f s a).tiles q).light layer = (s.tiles q).light layer + g a)
    (l : List α) :
    ∀ s : SavedBattleGame, s.width = w → s.length = le → s.height = h →
      ((l.foldl f s).tiles q).light layer
        = (s.tiles q).light layer + (l.map g).sum := by
  induction l with
  | nil => intro s _ _ _; simp
  | cons a t ih =>
    intro s h1 h2 h3
    rw [List.foldl_cons,
      ih (f s a) (by rw [hdw, h1]) (by rw [hdl, h2]) (by rw [hdh, h3]),
      happ s a h1 h2 h3, List.map_cons, List.sum_cons]
    ring

/-- The light field `addLight` produces, pointwise at `q`: the triple sum of
`quadDelta` over the loop ranges. -/
theorem addLight_apply (s : SavedBattleGame) (c : Position) (pw : Int)
    (layer : Nat) (q : Position) :
    ((addLight s c pw layer).tiles q).light layer
      = (s.tiles q).light layer
        + ((intRangeIncl pw).map fun x =>
            ((intRangeIncl pw).map fun y =>
              ((castRange s.height).map fun z =>
                quadDelta s.width s.length s.height c pw x y z q).sum).sum).sum := by
  unfold addLight
  refine foldl_light_delta s.width s.length s.height q layer _ _
    ?_ ?_ ?_ ?_ _ s rfl rfl rfl
  · intro s1 x
    exact foldl_width _ (fun s2 y => foldl_width _ (by simp) _ _) _ _
  · intro s1 x
    exact foldl_length _ (fun s2 y => foldl_length _ (by simp) _ _) _ _
  · intro s1 x
    exact foldl_height _ (fun s2 y => foldl_height _ (by simp) _ _) _ _
  · intro s1 x h1 h2 h3
    refine foldl_light_delta s.width s.length s.height q layer _ _
      ?_ ?_ ?_ ?_ _ s1 h1 h2 h3
    · intro s2 y
      exact foldl_width _ (by simp) _ _
    · intro s2 y
      exact foldl_length _ (by simp) _ _
    · intro s2 y
      exact foldl_height _ (by simp) _ _
    · intro s2 y g1 g2 g3
      refine foldl_light_delta s.width s.length s.height q layer _ _
        (by simp) (by simp) (by simp) ?_ _ s2 g1 g2 g3
      intro s3 z k1 k2 k3
      rw [quadAdd_apply, k1, k2, k3]

theorem castRange_succ (n : Nat) :
    castRange (n + 1) = castRange n ++ [Int.ofNat n] := by
  simp [castRange, List.range_succ]

/-- Summing a function over the cast range `0..n-1` when it vanishes at
every non-negative point other than `j`. -/
theorem sum_castRange_single (g : Int → Int) (n : Nat) (j : Int)
    (hz : ∀ z : Int, 0 ≤ z → z ≠ j → g z = 0) :
    ((castRange n).map g).sum = if 0 ≤ j ∧ j < (n : Int) then g j else 0 := by
  induction n with
  | zero =>
    rw [if_neg (by omega)]
    simp [castRange]
  | succ n ih =>
    rw [castRange_succ, List.map_append, List.sum_append, ih]
    simp only [List.map_cons, List.map_nil, List.sum_cons, List.sum_nil,
      add_zero]
    by_cases hj : j = (n : Int)
    · rw [if_neg (by omega), if_pos (by constructor <;> omega), hj]
      simp [Int.ofNat_eq_natCast]
    · rw [show Int.ofNat n = (n : Int) from rfl,
        hz (n : Int) (by positivity) (fun hc => hj hc.symm), add_zero]
      by_cases hP : 0 ≤ j ∧ j < (n : Int)
      · rw [if_pos hP, if_pos (by omega)]
      · rw [if_neg hP, if_neg (by omega)]

theorem quadDelta_zero_of_z (w le h : Nat) (c : Position) (pw x y z : Int)
    (q : Position) (hz : z ≠ q.z) :
    quadDelta w le h c pw x y z q = 0 := by
  unfold quadDelta
  rw [if_neg (fun hc => hz ((Position.eq_mk_iff q _ _ _).mp hc.2).2.2.symm),
    if_neg (fun hc => hz ((Position.eq_mk_iff q _ _ _).mp hc.2).2.2.symm),
    if_neg (fun hc => hz ((Position.eq_mk_iff q _ _ _).mp hc.2).2.2.symm),
    if_neg (fun hc => hz ((Position.eq_mk_iff q _ _ _).mp hc.2).2.2.symm)]
  norm_num

theorem quadDelta_zero_of_y (w le h : Nat) (c : Position) (pw x y z : Int)
    (q : Position) (hy0 : 0 ≤ y) (hyne : y ≠ |q.y - c.y|) :
    quadDelta w le h c pw x y z q = 0 := by
  rcases abs_cases (q.y - c.y) with ⟨ha, _⟩ | ⟨ha, _⟩ <;> rw [ha] at hyne <;>
  · have hA : ¬(q.y = c.y + y) := by omega
    have hB : ¬(q.y = c.y - y) := by omega
    unfold quadDelta
    rw [if_neg (fun hc => hA ((Position.eq_mk_iff q _ _ _).mp hc.2).2.1),
      if_neg (fun hc => hB ((Position.eq_mk_iff q _ _ _).mp hc.2).2.1),
      if_neg (fun hc => hA ((Position.eq_mk_iff q _ _ _).mp hc.2).2.1),
      if_neg (fun hc => hB ((Position.eq_mk_iff q _ _ _).mp hc.2).2.1)]
    norm_num

theorem quadDelta_zero_of_x (w le h : Nat) (c : Position) (pw x y z : Int)
    (q : Position) (hx0 : 0 ≤ x) (hxne : x ≠ |q.x - c.x|) :
    quadDelta w le h c pw x y z q = 0 := by
  rcases abs_cases (q.x - c.x) with ⟨ha, _⟩ | ⟨ha, _⟩ <;> rw [ha] at hxne <;>
  · have hA : ¬(q.x = c.x + x) := by omega
    have hB : ¬(q.x = c.x - x) := by omega
    unfold quadDelta
    rw [if_neg (fun hc => hA ((Position.eq_mk_iff q _ _ _).mp hc.2).1),
      if_neg (fun hc => hB ((Position.eq_mk_iff q _ _ _).mp hc.2).1),
      if_neg (fun hc => hB ((Position.eq_mk_iff q _ _ _).mp hc.2).1),
      if_neg (fun hc => hA ((Position.eq_mk_iff q _ _ _).mp hc.2).1)]
    norm_num

set_option maxHeartbeats 1600000 in
/-- The quadrant block evaluated at the matching offsets: multiplicity 2 per
axis the observation point shares with the center. -/
theorem quadDelta_at_abs (w le h : Nat) (c : Position) (pw : Int)
    (q : Position) (hq : inBounds w le h q = true) :
    quadDelta w le h c pw |q.x - c.x| |q.y - c.y| q.z q
      = (if q.x = c.x then 2 else 1) * (if q.y = c.y then 2 else 1)
        * (pw - (roundSqrt ((q.x - c.x) * (q.x - c.x)
            + (q.y - c.y) * (q.y - c.y)).toNat : Int)) := by
  have hvv : |q.x - c.x| * |q.x - c.x| = (q.x - c.x) * (q.x - c.x) :=
    abs_mul_abs_self _
  have hvw : |q.y - c.y| * |q.y - c.y| = (q.y - c.y) * (q.y - c.y) :=
    abs_mul_abs_self _
  have hsimp : ∀ a b V : Int,
      (if inBounds w le h ⟨a, b, q.z⟩ = true ∧ q = ⟨a, b, q.z⟩ then V else 0)
        = if q = ⟨a, b, q.z⟩ then V else 0 := by
    intro a b V
    by_cases hqe : q = (⟨a, b, q.z⟩ : Position)
    · rw [if_pos ⟨hqe ▸ hq, hqe⟩, if_pos hqe]
    · rw [if_neg (fun hc => hqe hc.2), if_neg hqe]
  unfold quadDelta
  rw [hvv, hvw, hsimp, hsimp, hsimp, hsimp]
  simp only [Position.eq_mk_iff, eq_self_iff_true, and_true]
  rcases lt_trichotomy (q.x - c.x) 0 with hdx | hdx | hdx <;>
    rcases lt_trichotomy (q.y - c.y) 0 with hdy | hdy | hdy
  · rw [abs_of_neg hdx, abs_of_neg hdy,
      if_neg (fun hc => absurd hc.1 (by omega)),
      if_pos ⟨by omega, by omega⟩,
      if_neg (fun hc => absurd hc.2 (by omega)),
      if_neg (fun hc => absurd hc.1 (by omega)),
      if_neg (by omega), if_neg (by omega)]
    ring
  · rw [abs_of_neg hdx, show |q.y - c.y| = 0 by rw [hdy]; exact abs_zero,
      if_neg (fun hc => absurd hc.1 (by omega)),
      if_pos ⟨by omega, by omega⟩,
      if_pos ⟨by omega, by omega⟩,
      if_neg (fun hc => absurd hc.1 (by omega)),
      if_neg (by omega), if_pos (by omega)]
    ring
  · rw [abs_of_neg hdx, abs_of_pos hdy,
      if_neg (fun hc => absurd hc.1 (by omega)),
      if_neg (fun hc => absurd hc.2 (by omega)),
      if_pos ⟨by omega, by omega⟩,
      if_neg (fun hc => absurd hc.1 (by omega)),
      if_neg (by omega), if_neg (by omega)]
    ring
  · rw [show |q.x - c.x| = 0 by rw [hdx]; exact abs_zero, abs_of_neg hdy,
      if_neg (fun hc => absurd hc.2 (by omega)),
      if_pos ⟨by omega, by omega⟩,
      if_neg (fun hc => absurd hc.2 (by omega)),
      if_pos ⟨by omega, by omega⟩,
      if_pos (by omega), if_neg (by omega)]
    ring
  · rw [show |q.x - c.x| = 0 by rw [hdx]; exact abs_zero,
      show |q.y - c.y| = 0 by rw [hdy]; exact abs_zero,
      if_pos ⟨by omega, by omega⟩,
      if_pos ⟨by omega, by omega⟩,
      if_pos ⟨by omega, by omega⟩,
      if_pos ⟨by omega, by omega⟩,
      if_pos (by omega), if_pos (by omega)]
    ring
  · rw [show |q.x - c.x| = 0 by rw [hdx]; exact abs_zero, abs_of_pos hdy,
      if_pos ⟨by omega, by omega⟩,
      if_neg (fun hc => absurd hc.2 (by omega)),
      if_pos ⟨by omega, by omega⟩,
      if_neg (fun hc => absurd hc.2 (by omega)),
      if_pos (by omega), if_neg (by omega)]
    ring
  · rw [abs_of_pos hdx, abs_of_neg hdy,
      if_neg (fun hc => absurd hc.2 (by omega)),
      if_neg (fun hc => absurd hc.1 (by omega)),
      if_neg (fun hc => absurd hc.1 (by omega)),
      if_pos ⟨by omega, by omega⟩,
      if_neg (by omega), if_neg (by omega)]
    ring
  · rw [abs_of_pos hdx, show |q.y - c.y| = 0 by rw [hdy]; exact abs_zero,
      if_pos ⟨by omega, by omega⟩,
      if_neg (fun hc => absurd hc.1 (by omega)),
      if_neg (fun hc => absurd hc.1 (by omega)),
      if_pos ⟨by omega, by omega⟩,
      if_neg (by omega), if_pos (by omega)]
    ring
  · rw [abs_of_pos hdx, abs_of_pos hdy,
      if_pos ⟨by omega, by omega⟩,
      if_neg (fun hc => absurd hc.1 (by omega)),
      if_neg (fun hc => absurd hc.1 (by omega)),
      if_neg (fun hc => absurd hc.2 (by omega)),
      if_neg (by omega), if_neg (by omega)]
    ring

/-- C1 (amended): for every in-bounds tile at offset `(dx, dy)` from the
center with `|dx| <= p` and `|dy| <= p`, on every z-level, `addLight` adds
`m * (p - round(sqrt(dx^2 + dy^2)))` onto the tile's existing layer value,
where the multiplicity `m` is 4 on the center column, 2 on columns sharing
the center's row or column (the axes), and 1 elsewhere: the
quadrant-mirroring loop deposits the contribution once per mirror image that
lands on the tile, so the center receives it four times and axis tiles
twice (in particular the center column's value increases by `4 * p`, not
`p`).  No occlusion enters anywhere. -/
theorem claim_C1_addLight_mult (s : SavedBattleGame) (c : Position)
    (pw : Int) (layer : Nat) (q : Position)
    (hq : s.tileExists q = true)
    (hx : |q.x - c.x| ≤ pw) (hy : |q.y - c.y| ≤ pw) :
    ((addLight s c pw layer).tiles q).light layer
      = (s.tiles q).light layer
        + (if q.x = c.x then 2 else 1) * (if q.y = c.y then 2 else 1)
          * (pw - (roundSqrt ((q.x - c.x) * (q.x - c.x)
              + (q.y - c.y) * (q.y - c.y)).toNat : Int)) := by
  have hq' : inBounds s.width s.length s.height q = true := hq
  have hqz := (inBounds_iff _ _ _ _).mp hq'
  have hpw0 : 0 ≤ pw := le_trans (abs_nonneg _) hx
  have hn : ((pw + 1).toNat : Int) = pw + 1 := Int.toNat_of_nonneg (by omega)
  rw [addLight_apply]
  have hzcol : ∀ x y : Int,
      ((castRange s.height).map fun z =>
        quadDelta s.width s.length s.height c pw x y z q).sum
      = quadDelta s.width s.length s.height c pw x y q.z q := by
    intro x y
    rw [sum_castRange_single _ _ q.z
      (fun z _ hzne => quadDelta_zero_of_z _ _ _ _ _ _ _ _ _ hzne)]
    rw [if_pos ⟨hqz.2.2.2.2.1, hqz.2.2.2.2.2⟩]
  have hycol : ∀ x : Int,
      ((intRangeIncl pw).map fun y =>
        quadDelta s.width s.length s.height c pw x y q.z q).sum
      = quadDelta s.width s.length s.height c pw x |q.y - c.y| q.z q := by
    intro x
    rw [intRangeIncl, sum_castRange_single _ _ |q.y - c.y|
      (fun y hy0 hyne => quadDelta_zero_of_y _ _ _ _ _ _ _ _ _ hy0 hyne)]
    rw [if_pos ⟨abs_nonneg _, by rw [hn]; omega⟩]
  have hxcol :
      ((intRangeIncl pw).map fun x =>
        quadDelta s.width s.length s.height c pw x |q.y - c.y| q.z q).sum
      = quadDelta s.width s.length s.height c pw |q.x - c.x| |q.y - c.y|
          q.z q := by
    rw [intRangeIncl, sum_castRange_single _ _ |q.x - c.x|
      (fun x hx0 hxne => quadDelta_zero_of_x _ _ _ _ _ _ _ _ _ hx0 hxne)]
    rw [if_pos ⟨abs_nonneg _, by rw [hn]; omega⟩]
  calc ((s.tiles q).light layer)
      + ((intRangeIncl pw).map fun x =>
          ((intRangeIncl pw).map fun y =>
            ((castRange s.height).map fun z =>
              quadDelta s.width s.length s.height c pw x y z q).sum).sum).sum
      = (s.tiles q).light layer
        + ((intRangeIncl pw).map fun x =>
            ((intRangeIncl pw).map fun y =>
              quadDelta s.width s.length s.height c pw x y q.z q).sum).sum := by
        congr 1
        refine congrArg List.sum (List.map_congr_left ?_)
        intro x _
        refine congrArg List.sum (List.map_congr_left ?_)
        intro y _
        exact hzcol x y
    _ = (s.tiles q).light layer
        + ((intRangeIncl pw).map fun x =>
            quadDelta s.width s.length s.height c pw x |q.y - c.y| q.z q).sum := by
        congr 1
        refine congrArg List.sum (List.map_congr_left ?_)
        intro x _
        exact hycol x
    _ = (s.tiles q).light layer
        + quadDelta s.width s.length s.height c pw |q.x - c.x| |q.y - c.y|
            q.z q := by rw [hxcol]
    _ = (s.tiles q).light layer
        + (if q.x = c.x then 2 else 1) * (if q.y = c.y then 2 else 1)
          * (pw - (roundSqrt ((q.x - c.x) * (q.x - c.x)
              + (q.y - c.y) * (q.y - c.y)).toNat : Int)) := by
        rw [quadDelta_at_abs _ _ _ _ _ _ hq']

/-- Witness for C1: on the one-tile map, lighting with power 1 at the center
adds `4 * (1 - 0) = 4` onto the center's ambient layer. -/
theorem claim_C1_witness :
    stateC4.tileExists ⟨0, 0, 0⟩ = true
    ∧ ((addLight stateC4 ⟨0, 0, 0⟩ 1 0).tiles ⟨0, 0, 0⟩).light 0
      = (stateC4.tiles ⟨0, 0, 0⟩).light 0
        + (if (0 : Int) = 0 then 2 else 1) * (if (0 : Int) = 0 then 2 else 1)
          * (1 - (roundSqrt (((0 : Int) - 0) * ((0 : Int) - 0)
              + ((0 : Int) - 0) * ((0 : Int) - 0)).toNat : Int)) :=
  ⟨by decide,
    claim_C1_addLight_mult stateC4 ⟨0, 0, 0⟩ 1 0 ⟨0, 0, 0⟩ (by decide)
      (by decide) (by decide)⟩

/-- Counterexample for C1 as stated: starting from a zero layer, the center
tile ends with light 4 after `addLight(center, power = 1)`, not exactly the
power 1 the claim requires — the quadrant mirrors all coincide on the
center, which is added four times. -/
theorem claim_C1_counterexample :
    ((addLight stateC4 ⟨0, 0, 0⟩ 1 0).tiles ⟨0, 0, 0⟩).light 0 = 4
    ∧ (4 : Int) ≠ 1 :=
  ⟨by decide, by decide⟩

/-! ### FOV sweep: flag monotonicity and the clearing pass -/

theorem checkForVisibleUnits_tiles (s : SavedBattleGame) (uidx : Nat)
    (t p : Position) : (checkForVisibleUnits s uidx t).tiles p = s.tiles p := by
  unfold checkForVisibleUnits
  cases hu : (s.tiles t).unit with
  | none => rfl
  | some bu =>
    dsimp only []
    split_ifs <;> simp [updUnit_tiles]

/-- Folding preserves a state predicate each step preserves. -/
theorem foldl_pres {α : Type} (P : SavedBattleGame → Prop)
    (f : SavedBattleGame → α → SavedBattleGame)
    (hstep : ∀ s a, P s → P (f s a)) :
    ∀ (l : List α) (s : SavedBattleGame), P s → P (l.foldl f s) := by
  intro l
  induction l with
  | nil => intro s h; exact h
  | cons a t ih => intro s h; exact ih (f s a) (hstep s a h)

theorem discovered_true_updTile (s : SavedBattleGame) (p' : Position)
    (f : Tile → Tile) (q : Position)
    (hf : ∀ t : Tile, t.discovered = true → (f t).discovered = true)
    (h : (s.tiles q).discovered = true) :
    ((s.updTile p' f).tiles q).discovered = true := by
  by_cases he : q = p'
  · rw [updTile_tiles, if_pos he]
    exact hf _ h
  · rw [updTile_tiles, if_neg he]
    exact h

theorem checked_true_updTile (s : SavedBattleGame) (p' : Position)
    (f : Tile → Tile) (q : Position)
    (hf : ∀ t : Tile, t.checked = true → (f t).checked = true)
    (h : (s.tiles q).checked = true) :
    ((s.updTile p' f).tiles q).checked = true := by
  by_cases he : q = p'
  · rw [updTile_tiles, if_pos he]
    exact hf _ h
  · rw [updTile_tiles, if_neg he]
    exact h

theorem revealDoorAt_discovered (s : SavedBattleGame) (pos : Position)
    (part : Nat) (p : Position) (h : (s.tiles p).discovered = true) :
    ((s.revealDoorAt pos part).tiles p).discovered = true := by
  unfold SavedBattleGame.revealDoorAt
  cases hg : s.getTile pos with
  | none => exact h
  | some t1 =>
    dsimp only []
    split_ifs with hd
    · exact discovered_true_updTile _ _ _ _ (fun t ht => rfl) h
    · exact h

theorem revealDoorAt_checked (s : SavedBattleGame) (pos : Position)
    (part : Nat) (p : Position) (h : (s.tiles p).checked = true) :
    ((s.revealDoorAt pos part).tiles p).checked = true := by
  unfold SavedBattleGame.revealDoorAt
  cases hg : s.getTile pos with
  | none => exact h
  | some t1 =>
    dsimp only []
    split_ifs with hd
    · exact checked_true_updTile _ _ _ _ (fun t ht => ht) h
    · exact h

theorem fovVisit_discovered (s : SavedBattleGame) (uidx : Nat)
    (tileX tileY tileZ : Int) (dest p : Position)
    (h : (s.tiles p).discovered = true) :
    ((fovVisit s uidx tileX tileY tileZ dest).tiles p).discovered = true := by
  unfold fovVisit
  have hA : ((s.updTile dest fun t => { t with checked := true }).tiles
      p).discovered = true :=
    discovered_true_updTile _ _ _ _ (fun t ht => ht) h
  have hB : ((checkForVisibleUnits
      (s.updTile dest fun t => { t with checked := true }) uidx dest).tiles
        p).discovered = true := by
    rw [checkForVisibleUnits_tiles]
    exact hA
  split_ifs with hpl
  · exact revealDoorAt_discovered _ _ _ _
      (revealDoorAt_discovered _ _ _ _
        (discovered_true_updTile _ _ _ _ (fun t ht => rfl) hB))
  · exact hB

theorem fovVisit_checked (s : SavedBattleGame) (uidx : Nat)
    (tileX tileY tileZ : Int) (dest p : Position)
    (h : (s.tiles p).checked = true) :
    ((fovVisit s uidx tileX tileY tileZ dest).tiles p).checked = true := by
  unfold fovVisit
  have hA : ((s.updTile dest fun t => { t with checked := true }).tiles
      p).checked = true :=
    checked_true_updTile _ _ _ _ (fun t ht => rfl) h
  have hB : ((checkForVisibleUnits
      (s.updTile dest fun t => { t with checked := true }) uidx dest).tiles
        p).checked = true := by
    rw [checkForVisibleUnits_tiles]
    exact hA
  split_ifs with hpl
  · exact revealDoorAt_checked _ _ _ _
      (revealDoorAt_checked _ _ _ _
        (checked_true_updTile _ _ _ _ (fun t ht => ht) hB))
  · exact hB

/-- One FOV ray never resets a discovered flag. -/
theorem fovMarchLoop_discovered (env : Env) (uidx : Nat)
    (cX cY cZ cosTe sinTe cosFi sinFi : Frac) (p : Position) :
    ∀ (fuel : Nat) (s : SavedBattleGame) (origin : Option Position)
      (l power : Int),
      (s.tiles p).discovered = true →
      ((fovMarchLoop env uidx cX cY cZ cosTe sinTe cosFi sinFi
          s origin l power fuel).tiles p).discovered = true := by
  intro fuel
  induction fuel with
  | zero => intro s origin l power h; exact h
  | succ n ih =>
    intro s origin l power h
    rw [fovMarchLoop]
    split_ifs with hp
    · exact h
    · dsimp only []
      split
      · exact h
      · apply ih
        split_ifs with hvis
        · exact fovVisit_discovered _ _ _ _ _ _ _ h
        · exact h

/-- One FOV ray never resets a sweep flag. -/
theorem fovMarchLoop_checked (env : Env) (uidx : Nat)
    (cX cY cZ cosTe sinTe cosFi sinFi : Frac) (p : Position) :
    ∀ (fuel : Nat) (s : SavedBattleGame) (origin : Option Position)
      (l power : Int),
      (s.tiles p).checked = true →
      ((fovMarchLoop env uidx cX cY cZ cosTe sinTe cosFi sinFi
          s origin l power fuel).tiles p).checked = true := by
  intro fuel
  induction fuel with
  | zero => intro s origin l power h; exact h
  | succ n ih =>
    intro s origin l power h
    rw [fovMarchLoop]
    split_ifs with hp
    · exact h
    · dsimp only []
      split
      · exact h
      · apply ih
        split_ifs with hvis
        · exact fovVisit_checked _ _ _ _ _ _ _ h
        · exact h

/-- The angular sweep never resets a discovered flag. -/
theorem fovSweep_discovered (env : Env) (uidx : Nat) (u : BattleUnit)
    (cX cY cZ : Frac) (startFi : Int) (s : SavedBattleGame) (p : Position)
    (h : (s.tiles p).discovered = true) :
    ((fovSweep env uidx u cX cY cZ startFi s).tiles p).discovered = true := by
  unfold fovSweep
  refine foldl_pres (fun s' => (s'.tiles p).discovered = true) _ ?_ _ s h
  intro s1 fi h1
  refine foldl_pres (fun s' => (s'.tiles p).discovered = true) _ ?_ _ s1 h1
  intro s2 te h2
  exact fovMarchLoop_discovered _ _ _ _ _ _ _ _ _ _ _ _ _ _ _ h2

/-- The angular sweep never resets a sweep flag: flags set while raytracing
survive to the end of the sweep. -/
theorem fovSweep_checked (env : Env) (uidx : Nat) (u : BattleUnit)
    (cX cY cZ : Frac) (startFi : Int) (s : SavedBattleGame) (p : Position)
    (h : (s.tiles p).checked = true) :
    ((fovSweep env uidx u cX cY cZ startFi s).tiles p).checked = true := by
  unfold fovSweep
  refine foldl_pres (fun s' => (s'.tiles p).checked = true) _ ?_ _ s h
  intro s1 fi h1
  refine foldl_pres (fun s' => (s'.tiles p).checked = true) _ ?_ _ s1 h1
  intro s2 te h2
  exact fovMarchLoop_checked _ _ _ _ _ _ _ _ _ _ _ _ _ _ _ h2

theorem mem_allPositions (s : SavedBattleGame) (p : Position) :
    p ∈ s.allPositions ↔ s.tileExists p = true := by
  obtain ⟨px, py, pz⟩ := p
  unfold SavedBattleGame.allPositions SavedBattleGame.tileExists
  simp only [List.mem_flatMap, List.mem_map, List.mem_range,
    Position.mk.injEq, Bool.and_eq_true, decide_eq_true_eq,
    Int.ofNat_eq_natCast]
  constructor
  · rintro ⟨z, hz, y, hy, x, hx, rfl, rfl, rfl⟩
    omega
  · intro h
    exact ⟨pz.toNat, by omega, py.toNat, by omega, px.toNat, by omega,
      by omega, by omega, by omega⟩

theorem clearChecked_discovered (s : SavedBattleGame) (p : Position) :
    ((clearChecked s).tiles p).discovered = (s.tiles p).discovered := by
  unfold clearChecked
  have hgen : ∀ (l : List Position) (s0 : SavedBattleGame),
      ((l.foldl (fun a q => a.updTile q fun t => { t with checked := false })
          s0).tiles p).discovered = (s0.tiles p).discovered := by
    intro l
    induction l with
    | nil => intro s0; rfl
    | cons a t ih =>
      intro s0
      rw [List.foldl_cons, ih]
      by_cases he : p = a
      · rw [updTile_tiles, if_pos he]
      · rw [updTile_tiles, if_neg he]
  exact hgen _ s

theorem foldl_clear_false (p : Position) :
    ∀ (l : List Position) (s0 : SavedBattleGame),
      (s0.tiles p).checked = false →
      ((l.foldl (fun a q => a.updTile q fun t => { t with checked := false })
          s0).tiles p).checked = false := by
  intro l
  induction l with
  | nil => intro s0 h; exact h
  | cons a t ih =>
    intro s0 h
    rw [List.foldl_cons]
    refine ih _ ?_
    by_cases he : p = a
    · rw [updTile_tiles, if_pos he]
    · rw [updTile_tiles, if_neg he]
      exact h

/-- Every tile the clearing pass walks ends with its sweep flag false. -/
theorem clearChecked_checked_false (s : SavedBattleGame) (p : Position)
    (hp : s.tileExists p = true) :
    ((clearChecked s).tiles p).checked = false := by
  unfold clearChecked
  have hmem : p ∈ s.allPositions := (mem_allPositions s p).mpr hp
  have hgen : ∀ (l : List Position) (s0 : SavedBattleGame), p ∈ l →
      ((l.foldl (fun a q => a.updTile q fun t => { t with checked := false })
          s0).tiles p).checked = false := by
    intro l
    induction l with
    | nil => intro s0 h; cases h
    | cons a t ih =>
      intro s0 h
      rw [List.foldl_cons]
      by_cases ht : p ∈ t
      · exact ih _ ht
      · have he : p = a := by
          rcases List.mem_cons.mp h with he | ht2
          · exact he
          · exact absurd ht2 ht
        refine foldl_clear_false _ _ _ ?_
        rw [updTile_tiles, if_pos he]
  exact hgen _ s hmem

/-! ### C10: the unit's own tile is discovered unconditionally -/

/-- C10: for a player-faction unit (with an in-bounds position, as the
source dereferences the tile unchecked), `calculateFOV` leaves the tile the
unit stands on discovered: it is marked before the angular sweep, with no
shade, power or blockage test, and nothing in the sweep ever resets a
discovered flag. -/
theorem claim_C10_own_tile (env : Env) (s : SavedBattleGame) (uidx : Nat)
    (hpl : (s.unitAt uidx).faction = .player)
    (_hin : s.tileExists (s.unitAt uidx).pos = true) :
    ((calculateFOV env s uidx).tiles (s.unitAt uidx).pos).discovered
      = true := by
  unfold calculateFOV
  dsimp only []
  rw [if_pos hpl]
  apply fovSweep_discovered
  rw [clearChecked_discovered, updUnit_tiles, updTile_tiles, if_pos rfl]

/-- Witness for C10 on the concrete two-tile fixture. -/
theorem claim_C10_witness :
    (stateFOV.unitAt 0).faction = .player
    ∧ stateFOV.tileExists (stateFOV.unitAt 0).pos = true
    ∧ ((calculateFOV envC stateFOV 0).tiles
        (stateFOV.unitAt 0).pos).discovered = true :=
  ⟨by decide, by decide,
    claim_C10_own_tile envC stateFOV 0 (by decide) (by decide)⟩

/-! ### C2: the sweep-local checked flag -/

/-- C2 (amended): within a single `calculateFOV` sweep, every in-bounds
tile's checked flag is false immediately after the sweep's initial clearing
pass (so the sweep is independent of flags left by earlier sweeps), but the
ray phase only ever sets flags — a flag set while raytracing survives to the
end of the sweep and persists on the tile after the sweep returns, to be
cleared only by the next sweep's own clearing pass. -/
theorem claim_C2_checked_lifecycle (env : Env) (s : SavedBattleGame)
    (uidx : Nat) (u : BattleUnit) (cX cY cZ : Frac) (startFi : Int)
    (p : Position) (hp : s.tileExists p = true) :
    ((clearChecked s).tiles p).checked = false
    ∧ ((s.tiles p).checked = true →
        ((fovSweep env uidx u cX cY cZ startFi s).tiles p).checked = true) :=
  ⟨clearChecked_checked_false s p hp,
    fun h => fovSweep_checked env uidx u cX cY cZ startFi s p h⟩

/-- Witness for C2's amended statement on the concrete fixture. -/
theorem claim_C2_witness :
    ((clearChecked stateFOV).tiles ⟨1, 0, 0⟩).checked = false
    ∧ ((stateFOV.tiles ⟨1, 0, 0⟩).checked = true →
        ((fovSweep envC 0 (stateFOV.unitAt 0) ⟨1, 2⟩ ⟨1, 2⟩ ⟨3, 2⟩ 0
            stateFOV).tiles ⟨1, 0, 0⟩).checked = true) :=
  claim_C2_checked_lifecycle envC stateFOV 0 (stateFOV.unitAt 0)
    ⟨1, 2⟩ ⟨1, 2⟩ ⟨3, 2⟩ 0 ⟨1, 0, 0⟩ (by decide)

/-- Counterexample for C2 as stated: after a full `calculateFOV` sweep on
the two-tile fixture, the tile (1,0,0) — reached by the sweep's very first
ray (vertical angle 0, horizontal angle 0, whose table entries are the
exact `cos 0 = 1`, `sin 0 = 0`) — still has its checked flag set: the sweep
clears the flags only at its start, never on return. -/
theorem claim_C2_counterexample :
    ((calculateFOV envC stateFOV 0).tiles ⟨1, 0, 0⟩).checked = true := by
  have hcal : calculateFOV envC stateFOV 0
      = fovSweep envC 0 (stateFOV.unitAt 0) ⟨1, 2⟩ ⟨1, 2⟩ ⟨3, 2⟩ 0
        (clearChecked
          ((stateFOV.updTile ⟨0, 0, 0⟩ fun t =>
            { t with discovered := true }).updUnit 0 fun v =>
              { v with visibleUnits := [] })) := rfl
  have hfi : stepRange 0 60 6
      = 0 :: [6, 12, 18, 24, 30, 36, 42, 48, 54, 60] := by decide
  have hte : stepRange (startAngle (stateFOV.unitAt 0).direction)
        (endAngle (stateFOV.unitAt 0).direction) 3
      = 0 :: [3, 6, 9, 12, 15, 18, 21, 24, 27, 30, 33, 36, 39, 42, 45, 48,
          51, 54, 57, 60, 63, 66, 69, 72, 75, 78, 81, 84, 87, 90] := by
    decide
  rw [hcal]
  unfold fovSweep
  rw [hfi, List.foldl_cons]
  refine foldl_pres (fun s' => (s'.tiles ⟨1, 0, 0⟩).checked = true) _ ?_ _ _
    ?_
  · intro s1 fi h1
    dsimp only []
    refine foldl_pres (fun s' => (s'.tiles ⟨1, 0, 0⟩).checked = true) _ ?_
      _ _ h1
    intro s2 te h2
    exact fovMarchLoop_checked _ _ _ _ _ _ _ _ _ _ _ _ _ _ _ h2
  · dsimp only []
    rw [hte, List.foldl_cons]
    refine foldl_pres (fun s' => (s'.tiles ⟨1, 0, 0⟩).checked = true) _ ?_
      _ _ ?_
    · intro s2 te h2
      exact fovMarchLoop_checked _ _ _ _ _ _ _ _ _ _ _ _ _ _ _ h2
    · decide

/-! ### C6: high-explosive destruction commits once, after all rays -/

@[simp]
theorem updUnit_width (s : SavedBattleGame) (i : Nat)
    (f : BattleUnit → BattleUnit) : (s.updUnit i f).width = s.width := rfl

@[simp]
theorem updUnit_length (s : SavedBattleGame) (i : Nat)
    (f : BattleUnit → BattleUnit) : (s.updUnit i f).length = s.length := rfl

@[simp]
theorem updUnit_height (s : SavedBattleGame) (i : Nat)
    (f : BattleUnit → BattleUnit) : (s.updUnit i f).height = s.height := rfl

theorem allPositions_nodup (s : SavedBattleGame) : s.allPositions.Nodup := by
  unfold SavedBattleGame.allPositions
  rw [List.nodup_flatMap]
  constructor
  · intro z _
    rw [List.nodup_flatMap]
    constructor
    · intro y _
      refine List.Nodup.map ?_ (List.nodup_range _)
      intro a b hab
      simp only [Position.mk.injEq, Int.ofNat_eq_natCast, Nat.cast_inj]
        at hab
      exact hab.1
    · refine List.Pairwise.imp ?_ (List.nodup_range _)
      intro a b hne p hp1 hp2
      simp only [List.mem_map, List.mem_range] at hp1 hp2
      obtain ⟨x1, _, rfl⟩ := hp1
      obtain ⟨x2, _, he⟩ := hp2
      simp only [Position.mk.injEq, Int.ofNat_eq_natCast, Nat.cast_inj]
        at he
      exact hne he.2.1.symm
  · refine List.Pairwise.imp ?_ (List.nodup_range _)
    intro a b hne p hp1 hp2
    simp only [List.mem_flatMap, List.mem_map, List.mem_range] at hp1 hp2
    obtain ⟨y1, _, x1, _, rfl⟩ := hp1
    obtain ⟨y2, _, x2, _, he⟩ := hp2
    simp only [Position.mk.injEq, Int.ofNat_eq_natCast, Nat.cast_inj] at he
    exact hne he.2.2.symm

theorem allPositions_count (s : SavedBattleGame) (p : Position) :
    s.allPositions.count p = if s.tileExists p then 1 else 0 := by
  by_cases h : s.tileExists p
  · rw [if_pos h]
    exact List.count_eq_one_of_mem (allPositions_nodup s)
      ((mem_allPositions s p).mpr h)
  · rw [if_neg h]
    exact List.count_eq_zero.mpr (fun hm => h ((mem_allPositions s p).mp hm))

theorem detonate_count (s : SavedBattleGame) (p : Position) :
    (s.allPositions.map Event.detonate).count (Event.detonate p)
      = if s.tileExists p then 1 else 0 := by
  rw [List.count_map_of_injective _ _ (fun a b h => by
      simpa using h), allPositions_count]

theorem allPositions_eq_of_dims (s1 s : SavedBattleGame)
    (hw : s1.width = s.width) (hl : s1.length = s.length)
    (hh : s1.height = s.height) : s1.allPositions = s.allPositions := by
  unfold SavedBattleGame.allPositions
  rw [hw, hl, hh]

@[simp]
theorem explodeVisit_width (type : ItemDamageType) (s : SavedBattleGame)
    (rng : RNG) (dest : Position) (p1 : Int) :
    (explodeVisit type s rng dest p1).1.width = s.width := by
  unfold explodeVisit
  split_ifs <;> first | rfl | (split <;> rfl)

@[simp]
theorem explodeVisit_length (type : ItemDamageType) (s : SavedBattleGame)
    (rng : RNG) (dest : Position) (p1 : Int) :
    (explodeVisit type s rng dest p1).1.length = s.length := by
  unfold explodeVisit
  split_ifs <;> first | rfl | (split <;> rfl)

@[simp]
theorem explodeVisit_height (type : ItemDamageType) (s : SavedBattleGame)
    (rng : RNG) (dest : Position) (p1 : Int) :
    (explodeVisit type s rng dest p1).1.height = s.height := by
  unfold explodeVisit
  split_ifs <;> first | rfl | (split <;> rfl)

theorem explodeVisit_no_detonate (type : ItemDamageType) (s : SavedBattleGame)
    (rng : RNG) (dest : Position) (p1 : Int) (q : Position) :
    Event.detonate q ∉ (explodeVisit type s rng dest p1).2.2 := by
  unfold explodeVisit
  split_ifs <;> (try split) <;> simp

theorem explodeMarch_dims (env : Env) (type : ItemDamageType)
    (maxRadius : Int) (cx cy cz ct st : Frac) :
    ∀ (fuel : Nat) (s : SavedBattleGame) (rng : RNG) (tr : List Event)
      (origin : Option Position) (l power : Int),
      (explodeMarch env type maxRadius cx cy cz ct st
          s rng tr origin l power fuel).1.width = s.width
      ∧ (explodeMarch env type maxRadius cx cy cz ct st
          s rng tr origin l power fuel).1.length = s.length
      ∧ (explodeMarch env type maxRadius cx cy cz ct st
          s rng tr origin l power fuel).1.height = s.height := by
  intro fuel
  induction fuel with
  | zero => intros; exact ⟨rfl, rfl, rfl⟩
  | succ n ih =>
    intro s rng tr origin l power
    rw [explodeMarch]
    split_ifs with hg
    · exact ⟨rfl, rfl, rfl⟩
    · dsimp only []
      split
      · exact ⟨rfl, rfl, rfl⟩
      · rename_i dest hdest
        obtain ⟨ihw, ihl, ihh⟩ := ih (explodeVisit type s rng dest
          (power - horizontalBlockage s env.junkX env.junkY origin (some dest)
            type)).1 _ _ _ _ _
        exact ⟨by rw [ihw]; simp, by rw [ihl]; simp, by rw [ihh]; simp⟩

theorem explodeMarch_no_detonate (env : Env) (type : ItemDamageType)
    (maxRadius : Int) (cx cy cz ct st : Frac) (q : Position) :
    ∀ (fuel : Nat) (s : SavedBattleGame) (rng : RNG) (tr : List Event)
      (origin : Option Position) (l power : Int),
      Event.detonate q ∉ tr →
      Event.detonate q ∉ (explodeMarch env type maxRadius cx cy cz ct st
          s rng tr origin l power fuel).2.2 := by
  intro fuel
  induction fuel with
  | zero => intro s rng tr origin l power h; exact h
  | succ n ih =>
    intro s rng tr origin l power h
    rw [explodeMarch]
    split_ifs with hg
    · exact h
    · dsimp only []
      split
      · exact h
      · rename_i dest hdest
        apply ih
        rw [List.mem_append]
        rintro (hc | hc)
        · exact h hc
        · exact explodeVisit_no_detonate _ _ _ _ _ _ hc

theorem explodeRays_dims (env : Env) (type : ItemDamageType)
    (maxRadius : Int) (center : Position) (power : Int)
    (s : SavedBattleGame) (rng : RNG) :
    (explodeRays env type maxRadius center power s rng).1.width = s.width
    ∧ (explodeRays env type maxRadius center power s rng).1.length = s.length
    ∧ (explodeRays env type maxRadius center power s rng).1.height
      = s.height := by
  unfold explodeRays
  dsimp only []
  generalize stepRange 0 360 3 = l
  have hgen : ∀ (l : List Int) (acc : SavedBattleGame × RNG × List Event),
      ((l.foldl (fun acc te =>
        explodeMarch env type maxRadius
          ⟨center.x.tdiv 16 * 2 + 1, 2⟩ ⟨center.y.tdiv 16 * 2 + 1, 2⟩
          ⟨center.z.tdiv 24 * 2 + 1, 2⟩ (env.cosDeg te) (env.sinDeg te)
          acc.1 acc.2.1 acc.2.2 (acc.1.getTile center) 0 power
          (maxRadius + 1).toNat) acc).1.width = acc.1.width)
      ∧ ((l.foldl (fun acc te =>
        explodeMarch env type maxRadius
          ⟨center.x.tdiv 16 * 2 + 1, 2⟩ ⟨center.y.tdiv 16 * 2 + 1, 2⟩
          ⟨center.z.tdiv 24 * 2 + 1, 2⟩ (env.cosDeg te) (env.sinDeg te)
          acc.1 acc.2.1 acc.2.2 (acc.1.getTile center) 0 power
          (maxRadius + 1).toNat) acc).1.length = acc.1.length)
      ∧ ((l.foldl (fun acc te =>
        explodeMarch env type maxRadius
          ⟨center.x.tdiv 16 * 2 + 1, 2⟩ ⟨center.y.tdiv 16 * 2 + 1, 2⟩
          ⟨center.z.tdiv 24 * 2 + 1, 2⟩ (env.cosDeg te) (env.sinDeg te)
          acc.1 acc.2.1 acc.2.2 (acc.1.getTile center) 0 power
          (maxRadius + 1).toNat) acc).1.height = acc.1.height) := by
    intro l
    induction l with
    | nil => intro acc; exact ⟨rfl, rfl, rfl⟩
    | cons a t iht =>
      intro acc
      rw [List.foldl_cons]
      obtain ⟨ihw, ihl, ihh⟩ := iht (explodeMarch env type maxRadius _ _ _
        (env.cosDeg a) (env.sinDeg a) acc.1 acc.2.1 acc.2.2
        (acc.1.getTile center) 0 power (maxRadius + 1).toNat)
      obtain ⟨mw, ml, mh⟩ := explodeMarch_dims env type maxRadius _ _ _
        (env.cosDeg a) (env.sinDeg a) (maxRadius + 1).toNat acc.1 acc.2.1
        acc.2.2 (acc.1.getTile center) 0 power
      exact ⟨by rw [ihw, mw], by rw [ihl, ml], by rw [ihh, mh]⟩
  exact hgen l (s, rng, [])

theorem explodeRays_no_detonate (env : Env) (type : ItemDamageType)
    (maxRadius : Int) (center : Position) (power : Int)
    (s : SavedBattleGame) (rng : RNG) (q : Position) :
    Event.detonate q
      ∉ (explodeRays env type maxRadius center power s rng).2.2 := by
  unfold explodeRays
  dsimp only []
  generalize stepRange 0 360 3 = l
  have hgen : ∀ (l : List Int) (acc : SavedBattleGame × RNG × List Event),
      Event.detonate q ∉ acc.2.2 →
      Event.detonate q ∉ ((l.foldl (fun acc te =>
        explodeMarch env type maxRadius
          ⟨center.x.tdiv 16 * 2 + 1, 2⟩ ⟨center.y.tdiv 16 * 2 + 1, 2⟩
          ⟨center.z.tdiv 24 * 2 + 1, 2⟩ (env.cosDeg te) (env.sinDeg te)
          acc.1 acc.2.1 acc.2.2 (acc.1.getTile center) 0 power
          (maxRadius + 1).toNat) acc).2.2) := by
    intro l
    induction l with
    | nil => intro acc h; exact h
    | cons a t iht =>
      intro acc h
      rw [List.foldl_cons]
      exact iht _ (explodeMarch_no_detonate env type maxRadius _ _ _
        (env.cosDeg a) (env.sinDeg a) q (maxRadius + 1).toNat acc.1 acc.2.1
        acc.2.2 (acc.1.getTile center) 0 power h)
  exact hgen l (s, rng, []) (by simp)

/-- C6: a high-explosive `explode` commits structural destruction in a
single pass: its event trace is the ray-phase trace followed by exactly one
detonate per grid tile, the ray phase itself containing no detonate — so
the rays only defer damage, and two overlapping high-explosive events each
commit destruction once, after their own rays. -/
theorem claim_C6_detonate_once (env : Env) (s : SavedBattleGame) (rng : RNG)
    (center : Position) (power maxRadius : Int) (excl : Option Nat) :
    (explode env s rng center power .DT_HE maxRadius excl).2.2
      = (explodeRays env .DT_HE maxRadius center power s rng).2.2
        ++ s.allPositions.map Event.detonate
    ∧ (∀ p, Event.detonate p
        ∉ (explodeRays env .DT_HE maxRadius center power s rng).2.2)
    ∧ (∀ p, (s.allPositions.map Event.detonate).count (Event.detonate p)
        = if s.tileExists p then 1 else 0) := by
  refine ⟨?_, fun p => explodeRays_no_detonate env .DT_HE maxRadius center
    power s rng p, fun p => detonate_count s p⟩
  unfold explode
  dsimp only []
  rw [if_neg (by decide : ¬((ItemDamageType.DT_HE) = .DT_AP))]
  rw [if_neg (by decide : ¬((ItemDamageType.DT_HE) = .DT_IN))]
  rcases hR : explodeRays env .DT_HE maxRadius center power s rng
    with ⟨s1, rng1, tr1⟩
  rw [if_pos rfl]
  unfold detonateAll
  dsimp only []
  obtain ⟨hw, hl, hh⟩ := explodeRays_dims env .DT_HE maxRadius center power
    s rng
  rw [hR] at hw hl hh
  rw [allPositions_eq_of_dims s1 s hw hl hh]

/-! ### C7: fire advance order and the ignition gates -/

theorem igniteAttempt_no_advance (env : Env) (s : SavedBattleGame)
    (rng : RNG) (src tgt q : Position) :
    Event.advanceTile q ∉ (igniteAttempt env s rng src tgt).2.2 := by
  unfold igniteAttempt
  split
  · simp
  · split_ifs <;> simp

theorem fireSpread_no_advance (env : Env) (s : SavedBattleGame) (rng : RNG)
    (p q : Position) :
    Event.advanceTile q ∉ (fireSpread env s rng p).2.2 := by
  unfold fireSpread
  simp only [List.foldl_cons, List.foldl_nil]
  simp [igniteAttempt_no_advance]

theorem igniteAttempt_ignite_iff (env : Env) (s : SavedBattleGame)
    (rng : RNG) (src tgt : Position) :
    (Event.ignite tgt ∈ (igniteAttempt env s rng src tgt).2.2)
      ↔ (s.tileExists tgt = true ∧ (s.tiles tgt).fire = 0
        ∧ horizontalBlockage s env.junkX env.junkY (s.getTile src)
            (some tgt) .DT_IN = 0
        ∧ (s.tiles tgt).flammability < 255
        ∧ Frac.intLt (s.tiles tgt).flammability
            (if (rng.genQ.1).isNeg then (rng.genQ.1).neg
              else rng.genQ.1) = true
        ∧ (rng.genQ.2).gen.1 < 2) := by
  unfold igniteAttempt SavedBattleGame.getTile
  by_cases he : s.tileExists tgt
  · rw [if_pos he]
    dsimp only []
    split_ifs <;> simp_all
  · rw [if_neg he]
    dsimp only []
    simp [he]

/-- C7: within `prepareNewTurn`'s per-burning-tile body the 3×3
neighbor-ignition attempts run first and the tile's own fire/burn-down
advance comes last (not first, as claimed), and a neighbor ignites exactly
when it exists, is not burning, the incendiary horizontal blockage from the
fire tile is zero, its flammability is below 255 (a precheck the claim
omits), the folded-normal sample exceeds the flammability, and the
secondary uniform roll is below 2. -/
theorem claim_C7_fire_order_and_gates (env : Env) (s : SavedBattleGame)
    (rng : RNG) (p src tgt : Position) :
    (fireStep env s rng p).2.2
      = (fireSpread env s rng p).2.2 ++ [Event.advanceTile p]
    ∧ (∀ q, Event.advanceTile q ∉ (fireSpread env s rng p).2.2)
    ∧ ((Event.ignite tgt ∈ (igniteAttempt env s rng src tgt).2.2)
      ↔ (s.tileExists tgt = true ∧ (s.tiles tgt).fire = 0
        ∧ horizontalBlockage s env.junkX env.junkY (s.getTile src)
            (some tgt) .DT_IN = 0
        ∧ (s.tiles tgt).flammability < 255
        ∧ Frac.intLt (s.tiles tgt).flammability
            (if (rng.genQ.1).isNeg then (rng.genQ.1).neg
              else rng.genQ.1) = true
        ∧ (rng.genQ.2).gen.1 < 2)) :=
  ⟨rfl, fun q => fireSpread_no_advance env s rng p q,
    igniteAttempt_ignite_iff env s rng src tgt⟩

/-- C7 counterexample: on a 2×1×1 map whose burning tile has a single
fireproof neighbor, the turn's event trace records the neighbor attempt
before the burning tile's own advance (the claim says the advance comes
first), and the neighbor does not ignite even though the folded-normal
sample 300 exceeds its flammability 255 and the uniform roll 0 is below 2 —
both random gates the claim calls sufficient pass, but the `flam < 255`
precheck fails. -/
theorem claim_C7_counterexample :
    (prepareNewTurn envC stateC7 rngC7).2.2
      = [Event.attemptIgnite ⟨0, 0, 0⟩ ⟨1, 0, 0⟩,
         Event.advanceTile ⟨0, 0, 0⟩]
    ∧ Frac.intLt (stateC7.tiles ⟨1, 0, 0⟩).flammability
        (if (rngC7.genQ.1).isNeg then (rngC7.genQ.1).neg
          else rngC7.genQ.1) = true
    ∧ (rngC7.genQ.2).gen.1 < 2
    ∧ Event.ignite ⟨1, 0, 0⟩ ∉ (prepareNewTurn envC stateC7 rngC7).2.2 := by
  decide

/-! ### C9: a door-opening entry point that dereferences an absent tile -/

/-- C9: `unitOpensDoor` is not total over valid grid/unit references.  A
unit at the west map edge facing north through a UFO door gets door code 1;
the adjacent-segment nudge then reassigns the local `tile` variable to the
out-of-bounds west neighbor (a null lookup), and the success path reads
`tile->getPosition()` from it — the embedding's `none`, a null
dereference rather than a treated-as-absent result. -/
theorem claim_C9_door_null_deref : unitOpensDoor envC stateC9 0 = none := by
  rfl

end OXC
